import Mathlib

/-!
Verification of the offline DNSSEC analysis core (dnsviz/analysis/offline.py)
against its natural-language specification.

The Python module under analysis defines `OfflineDomainNameAnalysis`, whose
methods populate per-node DNSSEC evaluation results over a graph of domain
name analysis objects.  This file gives a shallow embedding of the relevant
methods.  External collaborators that are not part of the analysed source
(the `Response`, `Status`, `Errors`, `Q`, `crypto` and `online` modules) are
modelled as input data: their observable outputs (response predicates such as
`recursion_desired_and_available()`, signature-verification outcomes, key
tags, etc.) appear as fields of the embedded structures.
-/

set_option autoImplicit false

namespace DnsvizOffline

/-- Domain names, abstractly. -/
abbrev DName := String

/-- The DNS record types distinguished by the analysed code. -/
inductive RdType
  | ds | dlv | ns | dnskey | cname | mx | soa | a | aaaa | txt | nsec | nsec3
  deriving DecidableEq, Repr

/-- The NAME status values `Status.NAME_STATUS_{NOERROR,NXDOMAIN,INDETERMINATE}`. -/
inductive NameStatus
  | noerror | nxdomain | indeterminate
  deriving DecidableEq, Repr

/-- Python exceptions that the embedded fragments can raise. -/
inductive PyError
  | nameError
  deriving DecidableEq, Repr

/-! ## Claim C7: ValueError behaviour of `_populate_ds_status` (offline.py 1255-1265)

`_populate_ds_status(rdtype, ...)` begins with the guard cascade

    if rdtype not in (dns.rdatatype.DS, dns.rdatatype.DLV):
        raise ValueError('Type can only be DS or DLV.')
    if self.parent is None:
        return
    if rdtype == dns.rdatatype.DLV:
        name = self.dlv_name
        if name is None:
            raise ValueError('No DLV specified for DomainNameAnalysis object.')

The remainder of the function contains no `raise ValueError` statement (the
only other mention of ValueError in offline.py, at line 1556, is a caught
exception inside `_populate_negative_response_status`), so the outcome of the
guard cascade fully determines whether the call raises ValueError. -/

/-- Outcome of the entry guards of `_populate_ds_status`:  either a
ValueError is raised, or the function returns early (no parent), or it
proceeds into the body (which raises no ValueError). -/
inductive DsOutcome
  | valueError | earlyReturn | proceeds
  deriving DecidableEq, Repr

/-- The guard cascade at the top of `_populate_ds_status` (offline.py
lines 1256-1265), deciding between ValueError, early return, and the body. -/
def dsStatusEntry (rdtype : RdType) (hasParent : Bool) (dlvName : Option DName) : DsOutcome :=
  if rdtype ≠ RdType.ds ∧ rdtype ≠ RdType.dlv then DsOutcome.valueError
  else if ¬ hasParent then DsOutcome.earlyReturn
  else if rdtype = RdType.dlv ∧ dlvName = none then DsOutcome.valueError
  else DsOutcome.proceeds

/-- Claim C7 as stated: ValueError exactly when the rdtype is neither DS nor
DLV, or when the rdtype is DLV and no DLV name is specified. -/
def c7ClaimedCondition (rdtype : RdType) (dlvName : Option DName) : Prop :=
  (rdtype ≠ RdType.ds ∧ rdtype ≠ RdType.dlv) ∨ (rdtype = RdType.dlv ∧ dlvName = none)

instance (rdtype : RdType) (dlvName : Option DName) :
    Decidable (c7ClaimedCondition rdtype dlvName) := by
  unfold c7ClaimedCondition; infer_instance

/-- Claim C7, counterexample: calling `_populate_ds_status` with rdtype DLV on
a node with no parent and no DLV name returns early (because the
`self.parent is None` check precedes the DLV-name check) instead of raising
the ValueError the claim demands. -/
theorem c7_counterexample :
    dsStatusEntry RdType.dlv false none = DsOutcome.earlyReturn ∧
      dsStatusEntry RdType.dlv false none ≠ DsOutcome.valueError ∧
      c7ClaimedCondition RdType.dlv none := by
  refine ⟨by decide, by decide, by decide⟩

/-- Claim C7, amended: `_populate_ds_status` raises ValueError exactly when
the rdtype is neither DS nor DLV, or when the rdtype is DLV on a node that
has a parent but no DLV name; with a DLV rdtype and no parent it returns
early without raising. -/
theorem c7_ds_status_value_error (rdtype : RdType) (hasParent : Bool) (dlvName : Option DName) :
    dsStatusEntry rdtype hasParent dlvName = DsOutcome.valueError ↔
      ((rdtype ≠ RdType.ds ∧ rdtype ≠ RdType.dlv) ∨
        (rdtype = RdType.dlv ∧ hasParent = true ∧ dlvName = none)) := by
  cases rdtype <;> cases hasParent <;> cases dlvName <;> simp [dsStatusEntry]

/-! ## Claim C8: the `qname_obj is None` branch of `_populate_wildcard_status`
(offline.py 859-864)

    for wildcard_name in rrset_info.wildcard_info:
        if qname_obj is None:
            zone_name = wildcard_info.parent()
        else:
            zone_name = qname_obj.zone.name

The name `wildcard_info` is never bound in `_populate_wildcard_status` (the
loop variable is `wildcard_name`; the mapping is always accessed as
`rrset_info.wildcard_info`), nor at module level, so evaluating
`wildcard_info.parent()` raises `NameError`.  The branch therefore aborts the
evaluation instead of logging and continuing. -/

/-- The zone-name derivation inside the wildcard loop: with a `qname_obj` the
zone name is read from it; without one the code evaluates the unbound name
`wildcard_info`, raising NameError. -/
def wildcardZoneName (qnameObjZone : Option DName) : Except PyError DName :=
  match qnameObjZone with
  | none => Except.error PyError.nameError
  | some z => Except.ok z

/-- The wildcard loop of `_populate_wildcard_status`, run down to the
zone-name derivation for each wildcard name of the RRset (the per-name NSEC
processing that follows is independent of the branch under scrutiny). -/
def populateWildcardStatusRun (wildcardNames : List DName) (qnameObjZone : Option DName) :
    Except PyError Unit :=
  wildcardNames.foldlM (fun _ _wn => (wildcardZoneName qnameObjZone).map (fun _ => ())) ()

/-- Claim C8 (a code bug): whenever the wildcard evaluator runs with
`qname_obj = None` and at least one wildcard_info entry, the zone-name branch
raises NameError (unbound local `wildcard_info`), so evaluation aborts
instead of completing as the claim requires. -/
theorem c8_wildcard_branch_raises (wildcardNames : List DName)
    (h : wildcardNames ≠ []) :
    populateWildcardStatusRun wildcardNames none = Except.error PyError.nameError := by
  cases wildcardNames with
  | nil => exact absurd rfl h
  | cons wn rest => rfl

/-- Witness for C8's theorem at a concrete input: one wildcard entry,
`qname_obj = None`. -/
theorem c8_wildcard_branch_raises_witness :
    populateWildcardStatusRun ["*.example."] none = Except.error PyError.nameError :=
  c8_wildcard_branch_raises ["*.example."] (by decide)

/-! ## Claim C6: diagnostic triple attribution, `InconsistentNXDOMAIN`
(offline.py 1628-1652)

The NOERROR/NXDOMAIN inconsistency check of `_populate_nxdomain_status`
compares an NXDOMAIN response info against each conflicting artifact of
the other non-DS/DLV queries — a positive answer RRset for the same
qname (offline.py 1634-1642), or a NODATA response info for the same
qname (offline.py 1644-1652).  Both arms have the same shape; for the
RRset arm:

    shared_servers_clients = set(rrset_info.servers_clients).intersection(neg_response_info.servers_clients)
    if shared_servers_clients:
        err1 = ...insert_into_list(Errors.InconsistentNXDOMAIN(...), self.nxdomain_warnings[neg_response_info], None, None, None)
        err2 = ...insert_into_list(Errors.InconsistentNXDOMAIN(...), self.rrset_warnings[rrset_info], None, None, None)
        for server, client in shared_servers_clients:
            for response in neg_response_info.servers_clients[(server, client)]:
                err1.add_server_client(server, client, response)
                err2.add_server_client(server, client, response)

and the NODATA arm (1644-1652) differs only in the conflicting artifact:
`shared_servers_clients` intersects `neg_response_info2.servers_clients`
with `neg_response_info.servers_clients`, and `err2` is inserted into
`self.nodata_warnings[neg_response_info2]`.  In both arms `err1`
decorates the NXDOMAIN artifact and `err2` the conflicting artifact, yet
both errors record the responses taken from the NXDOMAIN response's
provenance.  The model below is therefore parameterised by the
conflicting artifact's provenance `artProv`, instantiable to either arm. -/

/-- Provenance of an artifact: the `servers_clients` mapping from a
(server, client) pair to the list of responses returned by that pair.
Servers, clients and responses are identified by naturals. -/
abbrev ProvC6 := List ((Nat × Nat) × List Nat)

/-- The (server, client) pairs of a provenance (iterating the dict yields
its keys). -/
def provPairs (p : ProvC6) : List (Nat × Nat) := p.map (fun e => e.1)

/-- The full (server, client, response) triples of a provenance. -/
def provTriples (p : ProvC6) : List (Nat × Nat × Nat) :=
  p.flatMap (fun e => e.2.map (fun r => (e.1.1, e.1.2, r)))

/-- Lookup of `servers_clients[(server, client)]`. -/
def provLookup (p : ProvC6) (sc : Nat × Nat) : List Nat :=
  ((p.find? (fun e => e.1 = sc)).map (fun e => e.2)).getD []

/-- The shared pairs: the intersection of the conflicting artifact's
provenance keys with the NXDOMAIN response's provenance keys
(`set(rrset_info.servers_clients).intersection(neg_response_info.servers_clients)`
in the RRset arm,
`set(neg_response_info2.servers_clients).intersection(neg_response_info.servers_clients)`
in the NODATA arm). -/
def sharedPairs (artProv negProv : ProvC6) : List (Nat × Nat) :=
  (provPairs artProv).filter (fun sc => sc ∈ provPairs negProv)

/-- The (server, client, response) triples recorded on both
`InconsistentNXDOMAIN` errors of one arm of the inconsistency check (the
two errors record the identical list): for each shared pair, the
responses of the NXDOMAIN response's provenance.  Empty when
`shared_servers_clients` is empty, since then no error is created. -/
def inconsistentNxdomainTriples (artProv negProv : ProvC6) : List (Nat × Nat × Nat) :=
  if sharedPairs artProv negProv = [] then []
  else (sharedPairs artProv negProv).flatMap
    (fun sc => (provLookup negProv sc).map (fun r => (sc.1, sc.2, r)))

lemma mem_provTriples_of_lookup {p : ProvC6} {sc : Nat × Nat} {r : Nat}
    (hr : r ∈ provLookup p sc) : (sc.1, sc.2, r) ∈ provTriples p := by
  unfold provLookup at hr
  cases hfind : p.find? (fun e => e.1 = sc) with
  | none => simp [hfind] at hr
  | some e =>
      simp only [hfind, Option.map_some, Option.getD_some] at hr
      have hmem : e ∈ p := List.mem_of_find?_eq_some hfind
      have hsc : e.1 = sc := by
        have := List.find?_some hfind
        simpa using this
      unfold provTriples
      refine List.mem_flatMap.mpr ⟨e, hmem, ?_⟩
      refine List.mem_map.mpr ⟨r, hr, ?_⟩
      rw [hsc]

/-- Claim C6, counterexample: with one shared (server, client) pair whose
positive answer came in response 10 and whose NXDOMAIN came in response 20,
the error attached to the positive RRset records the triple (0,0,20), which
is not in the RRset's provenance (whose only triple is (0,0,10)). -/
theorem c6_counterexample :
    inconsistentNxdomainTriples [((0, 0), [10])] [((0, 0), [20])] = [(0, 0, 20)] ∧
      (0, 0, 20) ∉ provTriples [((0, 0), [10])] := by
  constructor
  · rfl
  · decide

/-- Claim C6, amended (scoped to the diagnostics of the fragment the claim
cites, the NOERROR/NXDOMAIN inconsistency check of
`_populate_nxdomain_status`, offline.py 1628-1652; the check's two arms —
conflicting positive RRset and conflicting NODATA response info — are the
two instantiations of `artProv`): each detected conflict produces a pair
of `InconsistentNXDOMAIN` diagnostics recording the identical (server,
client, response) triples, drawn from the NXDOMAIN response's provenance
at the shared (server, client) pairs.  Hence every triple recorded on the
copy attached to the NXDOMAIN response info lies in that artifact's
provenance (the claim's invariant holds for `err1`), while for the copy
attached to the conflicting artifact only the (server, client) pair lies
in that artifact's provenance — the full triple carries the conflicting
NXDOMAIN response and in general is not in the artifact's provenance, as
the counterexample shows, refuting the claim. -/
theorem c6_inconsistent_nxdomain_attribution (artProv negProv : ProvC6)
    (t : Nat × Nat × Nat) (ht : t ∈ inconsistentNxdomainTriples artProv negProv) :
    t ∈ provTriples negProv ∧ (t.1, t.2.1) ∈ provPairs artProv := by
  unfold inconsistentNxdomainTriples at ht
  by_cases hz : sharedPairs artProv negProv = []
  · simp [hz] at ht
  · rw [if_neg hz] at ht
    rcases List.mem_flatMap.mp ht with ⟨sc, hsc, hmap⟩
    rcases List.mem_map.mp hmap with ⟨r, hr, hteq⟩
    have hshared := hsc
    unfold sharedPairs at hshared
    rcases List.mem_filter.mp hshared with ⟨hart, hneg⟩
    have hnegmem : sc ∈ provPairs negProv := by simpa using hneg
    subst hteq
    exact ⟨mem_provTriples_of_lookup hr, hart⟩

/-- Witness for C6's amended theorem at a concrete input. -/
theorem c6_inconsistent_nxdomain_attribution_witness :
    (0, 0, 20) ∈ provTriples [((0, 0), [20])] ∧
      ((0 : Nat), (0 : Nat)) ∈ provPairs [((0, 0), [10])] :=
  c6_inconsistent_nxdomain_attribution [((0, 0), [10])] [((0, 0), [20])]
    (0, 0, 20) (by decide)

/-! ## Claim C2: RRSIG-to-DNSKEY binding conditions in `_populate_rrsig_status`
(offline.py 987-1022)

For one RRSIG over an answer RRset, the code walks the resolved signer's
DNSKEY sets:

    checked_keys = set()
    for dnskey_set, dnskey_meta in signer.get_dnskey_sets():
        validation_status_mapping = { True: set(), False: set(), None: set() }
        for dnskey in dnskey_set:
            if dnskey in checked_keys:
                continue
            if self_sig and dnskey.rdata not in rrset_info.rrset:
                continue
            checked_keys.add(dnskey)
            if not (dnskey.rdata.protocol == 3 and \
                    rrsig.key_tag in (dnskey.key_tag, dnskey.key_tag_no_revoke) and \
                    rrsig.algorithm == dnskey.rdata.algorithm):
                continue
            rrsig_status = Status.RRSIGStatus(rrset_info, rrsig, dnskey, ...)
            validation_status_mapping[rrsig_status.signature_valid].add(rrsig_status)
        for status in True, False, None:
            if validation_status_mapping[status]:
                for rrsig_status in validation_status_mapping[status]:
                    self.rrsig_status[...][...][rrsig_status.dnskey] = rrsig_status
                break

The signature-verification outcome (`signature_valid`, computed by the
external `Status.RRSIGStatus`) is carried as input data on each DNSKEY. -/

/-- A candidate DNSKEY (`Response.DNSKEYMeta`, an external class): object
identity `kid` (membership in `checked_keys`), rdata identity `rdataId`
(membership in the DNSKEY RRset for the self-signature rule), the wire
fields read by the binding condition, and the signature-verification
outcome `sigValid` that `Status.RRSIGStatus` would compute for this
RRSIG/DNSKEY pair. -/
structure DnskeyC2 where
  kid : Nat
  rdataId : Nat
  protocol : Nat
  algorithm : Nat
  keyTag : Nat
  keyTagNoRevoke : Nat
  sigValid : Option Bool
  deriving DecidableEq, Repr

/-- The fields of one RRSIG read by the binding condition. -/
structure RrsigC2 where
  algorithm : Nat
  keyTag : Nat
  deriving DecidableEq, Repr

/-- The binding condition of offline.py line 1000-1002:
`dnskey.rdata.protocol == 3 and rrsig.key_tag in (dnskey.key_tag,
dnskey.key_tag_no_revoke) and rrsig.algorithm == dnskey.rdata.algorithm`. -/
def dnskeyBindCond (rrsig : RrsigC2) (dk : DnskeyC2) : Bool :=
  dk.protocol == 3 && (rrsig.keyTag == dk.keyTag || rrsig.keyTag == dk.keyTagNoRevoke) &&
    rrsig.algorithm == dk.algorithm

/-- The `validation_status_mapping` buckets keyed by `signature_valid`
(True, False, None). -/
structure C2Buckets where
  tt : List DnskeyC2
  ff : List DnskeyC2
  nn : List DnskeyC2
  deriving DecidableEq, Repr

/-- Add a candidate to the bucket selected by its `signature_valid`. -/
def c2AddBucket (dk : DnskeyC2) (b : C2Buckets) : C2Buckets :=
  match dk.sigValid with
  | some true => { b with tt := b.tt ++ [dk] }
  | some false => { b with ff := b.ff ++ [dk] }
  | none => { b with nn := b.nn ++ [dk] }

/-- One iteration of the inner `for dnskey in dnskey_set` loop: skip
already-checked keys, skip non-members under the self-signature rule, mark
the key checked, skip keys failing the binding condition, otherwise add the
key to the bucket of its verification outcome. -/
def c2Step (rrsig : RrsigC2) (selfSig : Bool) (rrsetRdatas : List Nat) :
    List Nat × C2Buckets → DnskeyC2 → List Nat × C2Buckets
  | (checked, b), dk =>
    if dk.kid ∈ checked then (checked, b)
    else if selfSig ∧ dk.rdataId ∉ rrsetRdatas then (checked, b)
    else if ¬ dnskeyBindCond rrsig dk then (checked ++ [dk.kid], b)
    else (checked ++ [dk.kid], c2AddBucket dk b)

/-- The priority-group selection of offline.py 1008-1022: the first
non-empty bucket in the order valid, invalid, indeterminate is recorded. -/
def c2Chosen (b : C2Buckets) : List DnskeyC2 :=
  if b.tt ≠ [] then b.tt else if b.ff ≠ [] then b.ff else b.nn

/-- Processing of one DNSKEY set: fold the inner loop over the set starting
from fresh buckets, then record the chosen priority group. -/
def c2ProcessSet (rrsig : RrsigC2) (selfSig : Bool) (rrsetRdatas : List Nat)
    (s : List Nat × List DnskeyC2) (dset : List DnskeyC2) : List Nat × List DnskeyC2 :=
  let r := dset.foldl (c2Step rrsig selfSig rrsetRdatas) (s.1, ⟨[], [], []⟩)
  (r.1, s.2 ++ c2Chosen r.2)

/-- The DNSKEYs receiving a per-DNSKEY RRSIGStatus binding for one RRSIG,
accumulated over the signer's DNSKEY sets (offline.py 987-1022). -/
def rrsigBindings (rrsig : RrsigC2) (selfSig : Bool) (rrsetRdatas : List Nat)
    (dnskeySets : List (List DnskeyC2)) : List DnskeyC2 :=
  (dnskeySets.foldl (c2ProcessSet rrsig selfSig rrsetRdatas) ([], [])).2

/-- All candidates sitting in any bucket. -/
def c2InBuckets (dk : DnskeyC2) (b : C2Buckets) : Prop :=
  dk ∈ b.tt ∨ dk ∈ b.ff ∨ dk ∈ b.nn

lemma c2InBuckets_add {dk x : DnskeyC2} {b : C2Buckets}
    (hx : c2InBuckets x (c2AddBucket dk b)) : x = dk ∨ c2InBuckets x b := by
  unfold c2AddBucket at hx
  unfold c2InBuckets at hx ⊢
  cases hsv : dk.sigValid with
  | none =>
      rw [hsv] at hx
      rcases hx with h | h | h
      · exact Or.inr (Or.inl h)
      · exact Or.inr (Or.inr (Or.inl h))
      · rcases List.mem_append.mp h with h | h
        · exact Or.inr (Or.inr (Or.inr h))
        · simp at h; exact Or.inl h
  | some v =>
      cases v with
      | true =>
          rw [hsv] at hx
          rcases hx with h | h | h
          · rcases List.mem_append.mp h with h | h
            · exact Or.inr (Or.inl h)
            · simp at h; exact Or.inl h
          · exact Or.inr (Or.inr (Or.inl h))
          · exact Or.inr (Or.inr (Or.inr h))
      | false =>
          rw [hsv] at hx
          rcases hx with h | h | h
          · exact Or.inr (Or.inl h)
          · rcases List.mem_append.mp h with h | h
            · exact Or.inr (Or.inr (Or.inl h))
            · simp at h; exact Or.inl h
          · exact Or.inr (Or.inr (Or.inr h))

/-- Invariant of the inner loop: every bucket member satisfies the binding
condition. -/
lemma c2_fold_buckets_cond (rrsig : RrsigC2) (selfSig : Bool) (rrsetRdatas : List Nat) :
    ∀ (dset : List DnskeyC2) (s : List Nat × C2Buckets),
      (∀ x, c2InBuckets x s.2 → dnskeyBindCond rrsig x = true) →
      ∀ x, c2InBuckets x (dset.foldl (c2Step rrsig selfSig rrsetRdatas) s).2 →
        dnskeyBindCond rrsig x = true := by
  intro dset
  induction dset with
  | nil => intro s hs x hx; exact hs x hx
  | cons dk rest ih =>
      intro s hs x hx
      refine ih (c2Step rrsig selfSig rrsetRdatas s dk) ?_ x hx
      intro y hy
      rcases s with ⟨checked, b⟩
      simp only [c2Step] at hy
      by_cases h1 : dk.kid ∈ checked
      · rw [if_pos h1] at hy; exact hs y hy
      · rw [if_neg h1] at hy
        by_cases h2 : selfSig = true ∧ dk.rdataId ∉ rrsetRdatas
        · rw [if_pos h2] at hy; exact hs y hy
        · rw [if_neg h2] at hy
          by_cases h3 : ¬ dnskeyBindCond rrsig dk = true
          · rw [if_pos h3] at hy; exact hs y hy
          · rw [if_neg h3] at hy
            rcases c2InBuckets_add hy with rfl | hyb
            · exact of_not_not h3
            · exact hs y hyb

lemma c2Chosen_subset {b : C2Buckets} {x : DnskeyC2} (hx : x ∈ c2Chosen b) :
    c2InBuckets x b := by
  unfold c2Chosen at hx
  unfold c2InBuckets
  by_cases h1 : b.tt ≠ []
  · rw [if_pos h1] at hx; exact Or.inl hx
  · rw [if_neg h1] at hx
    by_cases h2 : b.ff ≠ []
    · rw [if_pos h2] at hx; exact Or.inr (Or.inl hx)
    · rw [if_neg h2] at hx; exact Or.inr (Or.inr hx)

/-- Invariant over the outer loop: every recorded DNSKEY satisfies the
binding condition. -/
lemma c2_sets_fold_cond (rrsig : RrsigC2) (selfSig : Bool) (rrsetRdatas : List Nat) :
    ∀ (sets : List (List DnskeyC2)) (s : List Nat × List DnskeyC2),
      (∀ x ∈ s.2, dnskeyBindCond rrsig x = true) →
      ∀ x ∈ (sets.foldl (c2ProcessSet rrsig selfSig rrsetRdatas) s).2,
        dnskeyBindCond rrsig x = true := by
  intro sets
  induction sets with
  | nil => intro s hs x hx; exact hs x hx
  | cons dset rest ih =>
      intro s hs x hx
      refine ih (c2ProcessSet rrsig selfSig rrsetRdatas s dset) ?_ x hx
      intro y hy
      unfold c2ProcessSet at hy
      simp only at hy
      rcases List.mem_append.mp hy with h | h
      · exact hs y h
      · have hb := c2Chosen_subset h
        exact c2_fold_buckets_cond rrsig selfSig rrsetRdatas dset (s.1, ⟨[], [], []⟩)
          (by intro z hz; rcases hz with hz | hz | hz <;> simp at hz) y hb

/-- Claim C2, confirmed: a per-DNSKEY RRSIGStatus binding is recorded only
for a candidate DNSKEY with protocol 3, matching algorithm, and an RRSIG key
tag equal to the DNSKEY's key tag or its no-revoke key tag; every candidate
failing any of these conditions receives no binding entry for that RRSIG. -/
theorem c2_rrsig_binding_conditions (rrsig : RrsigC2) (selfSig : Bool)
    (rrsetRdatas : List Nat) (dnskeySets : List (List DnskeyC2)) (dk : DnskeyC2)
    (h : dk ∈ rrsigBindings rrsig selfSig rrsetRdatas dnskeySets) :
    dk.protocol = 3 ∧ rrsig.algorithm = dk.algorithm ∧
      (rrsig.keyTag = dk.keyTag ∨ rrsig.keyTag = dk.keyTagNoRevoke) := by
  have hcond : dnskeyBindCond rrsig dk = true :=
    c2_sets_fold_cond rrsig selfSig rrsetRdatas dnskeySets ([], [])
      (by intro x hx; simp at hx) dk h
  unfold dnskeyBindCond at hcond
  simp only [Bool.and_eq_true, Bool.or_eq_true, beq_iff_eq] at hcond
  exact ⟨hcond.1.1, hcond.2, hcond.1.2⟩

/-- Witness for C2's theorem: one DNSKEY set with a matching key (protocol 3,
algorithm 8, key tag 12345, verification valid); the key is recorded and the
conditions hold at it. -/
theorem c2_rrsig_binding_conditions_witness :
    (⟨1, 1, 3, 8, 12345, 12345, some true⟩ : DnskeyC2) ∈
        rrsigBindings ⟨8, 12345⟩ false [] [[⟨1, 1, 3, 8, 12345, 12345, some true⟩]] ∧
      (3 = 3 ∧ (8 : Nat) = 8 ∧ ((12345 : Nat) = 12345 ∨ (12345 : Nat) = 12345)) := by
  refine ⟨by decide, ?_⟩
  exact c2_rrsig_binding_conditions ⟨8, 12345⟩ false [] [[⟨1, 1, 3, 8, 12345, 12345, some true⟩]]
    ⟨1, 1, 3, 8, 12345, 12345, some true⟩ (by decide)

/-! ## Claim C3: per-response NSEC status tracking in
`_populate_negative_response_status` (offline.py 1569-1608)

    statuses = []
    status_by_response = {}
    for nsec_set_info in neg_response_info.nsec_set_info:
        status = ...          # NSEC or NSEC3 status object for this set
        ...
        if status.validation_status == Status.NSEC_STATUS_VALID:
            if status not in statuses:
                statuses.append(status)
        for server, client in nsec_set_info.servers_clients:
            for response in nsec_set_info.servers_clients[(server,client)]:
                if (server,client,response) in servers_missing_nsec:
                    servers_missing_nsec.remove((server,client,response))
                if status.validation_status == Status.NSEC_STATUS_VALID:
                    if (server,client,response) in status_by_response:
                        del status_by_response[(server,client,response)]
                elif neg_response_info.qname == query.qname or response.recursion_desired_and_available():
                    status_by_response[(server,client,response)] = status
    for (server,client,response), status in status_by_response.items():
        if status not in statuses:
            statuses.append(status)

One status object is constructed per nsec_set_info; its
`validation_status` (computed by the external `Status.NSEC[3]Status*`
classes) is carried as the input field `valid` of each set, and the status
object is identified by the set's position.  `qname == query.qname` is the
per-call boolean `qm`. -/

/-- A (server, client, response) triple as seen by the negative-response
evaluator: an identity and the `recursion_desired_and_available()` flag. -/
structure RespC3 where
  rid : Nat
  rdRa : Bool
  deriving DecidableEq, Repr

/-- One `nsec_set_info`: the validity of the proof status constructed from
it, and the triples of its `servers_clients`. -/
structure NsecSetC3 where
  valid : Bool
  resps : List RespC3
  deriving DecidableEq, Repr

/-- The status object constructed for the nsec set at position `setIdx`
(Python object identity: one fresh object per set). -/
structure NsecStatusC3 where
  setIdx : Nat
  valid : Bool
  deriving DecidableEq, Repr

/-- The status object for an indexed nsec set. -/
def c3MkStatus (p : Nat × NsecSetC3) : NsecStatusC3 := ⟨p.1, p.2.valid⟩

/-- The `status_by_response` dict, as an association list keyed by
response triple. -/
abbrev SbrMap := List (RespC3 × NsecStatusC3)

/-- Dict deletion `del status_by_response[r]`. -/
def sbrErase (r : RespC3) : SbrMap → SbrMap
  | [] => []
  | p :: t => if p.1 = r then sbrErase r t else p :: sbrErase r t

/-- Dict assignment `status_by_response[r] = s`: replace the entry of an
existing key, otherwise append. -/
def sbrInsert (r : RespC3) (s : NsecStatusC3) : SbrMap → SbrMap
  | [] => [(r, s)]
  | p :: t => if p.1 = r then (r, s) :: t else p :: sbrInsert r s t

/-- Dict lookup. -/
def sbrLookup (r : RespC3) : SbrMap → Option NsecStatusC3
  | [] => none
  | p :: t => if p.1 = r then some p.2 else sbrLookup r t

/-- Processing of one nsec set (one iteration of the outer loop): append the
status to `statuses` if valid and new, then walk the set's responses,
removing them from `servers_missing_nsec` and updating
`status_by_response`. -/
def c3SetStep (qm : Bool) (acc : List NsecStatusC3 × SbrMap × List RespC3)
    (p : Nat × NsecSetC3) : List NsecStatusC3 × SbrMap × List RespC3 :=
  (if (c3MkStatus p).valid ∧ c3MkStatus p ∉ acc.1 then acc.1 ++ [c3MkStatus p] else acc.1,
    p.2.resps.foldl
      (fun sbr r =>
        if (c3MkStatus p).valid then sbrErase r sbr
        else if qm || r.rdRa then sbrInsert r (c3MkStatus p) sbr
        else sbr) acc.2.1,
    p.2.resps.foldl (fun m r => m.filter (fun x => ¬ x == r)) acc.2.2)

/-- The status-tracking portion of `_populate_negative_response_status`
(offline.py 1569-1598): returns the final `statuses` list, the final
`status_by_response` map and the final `servers_missing_nsec` set. -/
def negRespStatuses (qm : Bool) (negResps : List RespC3) (sets : List NsecSetC3) :
    List NsecStatusC3 × SbrMap × List RespC3 :=
  let folded := (sets.enum).foldl (c3SetStep qm) ([], [], negResps)
  (folded.2.1.foldl (fun sts e => if e.2 ∉ sts then sts ++ [e.2] else sts) folded.1,
    folded.2.1, folded.2.2)

/-- The distinct valid statuses in construction order. -/
def validsSpec (sets : List NsecSetC3) : List NsecStatusC3 :=
  (sets.enum).foldl
    (fun acc p => if (c3MkStatus p).valid ∧ c3MkStatus p ∉ acc then acc ++ [c3MkStatus p] else acc) []

/-- The retained-status recursion over an indexed tail of nsec sets. -/
def retainedFrom (qm : Bool) (ps : List (Nat × NsecSetC3)) (r : RespC3)
    (acc : Option NsecStatusC3) : Option NsecStatusC3 :=
  ps.foldl
    (fun acc p =>
      if r ∈ p.2.resps then
        (if p.2.valid then none else if qm || r.rdRa then some (c3MkStatus p) else acc)
      else acc) acc

/-- The per-response status retained at the end of the nsec-set iteration:
the status of the last invalid set covering the response that is not
followed by a later valid set covering it, and only when the store gate
(`qname == query.qname or recursion_desired_and_available`) holds. -/
def retainedSpec (qm : Bool) (sets : List NsecSetC3) (r : RespC3) : Option NsecStatusC3 :=
  retainedFrom qm sets.enum r none

@[simp] lemma sbrLookup_nil (r : RespC3) : sbrLookup r [] = none := rfl

@[simp] lemma sbrLookup_cons (r : RespC3) (p : RespC3 × NsecStatusC3) (t : SbrMap) :
    sbrLookup r (p :: t) = if p.1 = r then some p.2 else sbrLookup r t := rfl

@[simp] lemma sbrErase_nil (r : RespC3) : sbrErase r [] = [] := rfl

@[simp] lemma sbrErase_cons (r : RespC3) (p : RespC3 × NsecStatusC3) (t : SbrMap) :
    sbrErase r (p :: t) = if p.1 = r then sbrErase r t else p :: sbrErase r t := rfl

@[simp] lemma sbrInsert_nil (r : RespC3) (s : NsecStatusC3) : sbrInsert r s [] = [(r, s)] := rfl

@[simp] lemma sbrInsert_cons (r : RespC3) (s : NsecStatusC3) (p : RespC3 × NsecStatusC3)
    (t : SbrMap) :
    sbrInsert r s (p :: t) = if p.1 = r then (r, s) :: t else p :: sbrInsert r s t := rfl

lemma sbrLookup_erase_self (r : RespC3) (l : SbrMap) : sbrLookup r (sbrErase r l) = none := by
  induction l with
  | nil => rfl
  | cons p t ih =>
      by_cases hp : p.1 = r
      · simpa [hp] using ih
      · simpa [hp] using ih

lemma sbrLookup_erase_ne {r r' : RespC3} (l : SbrMap) (h : r' ≠ r) :
    sbrLookup r (sbrErase r' l) = sbrLookup r l := by
  induction l with
  | nil => rfl
  | cons p t ih =>
      by_cases hp : p.1 = r'
      · simpa [hp, h] using ih
      · by_cases hpr : p.1 = r
        · simp [hp, hpr, Ne.symm h]
        · simpa [hp, hpr] using ih

lemma sbrLookup_insert_self (r : RespC3) (s : NsecStatusC3) (l : SbrMap) :
    sbrLookup r (sbrInsert r s l) = some s := by
  induction l with
  | nil => simp
  | cons p t ih =>
      by_cases hp : p.1 = r
      · simp [hp]
      · simpa [hp] using ih

lemma sbrLookup_insert_ne {r r' : RespC3} (s : NsecStatusC3) (l : SbrMap) (h : r' ≠ r) :
    sbrLookup r (sbrInsert r' s l) = sbrLookup r l := by
  induction l with
  | nil => simp [h]
  | cons p t ih =>
      by_cases hp : p.1 = r'
      · simp [hp, h]
      · by_cases hpr : p.1 = r
        · simp [hp, hpr, Ne.symm h]
        · simpa [hp, hpr] using ih

/-- Effect of one nsec set's response loop on the tracked entry for one
response. -/
lemma c3_resp_fold_lookup (qm : Bool) (status : NsecStatusC3) (r : RespC3) :
    ∀ (resps : List RespC3) (sbr : SbrMap),
      sbrLookup r (resps.foldl
        (fun sbr x =>
          if status.valid then sbrErase x sbr
          else if qm || x.rdRa then sbrInsert x status sbr
          else sbr) sbr) =
        if r ∈ resps then
          (if status.valid then none else if qm || r.rdRa then some status else sbrLookup r sbr)
        else sbrLookup r sbr := by
  intro resps
  induction resps with
  | nil => intro sbr; simp
  | cons x xs ih =>
      intro sbr
      simp only [List.foldl_cons]
      rw [ih]
      by_cases hx : x = r
      · subst hx
        by_cases hv : status.valid <;> by_cases hg : (qm || x.rdRa) = true <;>
          by_cases hmem : x ∈ xs <;>
            simp [hv, hg, hmem, sbrLookup_erase_self, sbrLookup_insert_self]
      · have hrx : r ≠ x := fun hc => hx hc.symm
        have hlook :
            sbrLookup r (if status.valid then sbrErase x sbr
              else if qm || x.rdRa then sbrInsert x status sbr else sbr) = sbrLookup r sbr := by
          by_cases hv : status.valid
          · rw [if_pos hv, sbrLookup_erase_ne _ hx]
          · rw [if_neg hv]
            by_cases hg : (qm || x.rdRa) = true
            · rw [if_pos hg, sbrLookup_insert_ne _ _ hx]
            · rw [if_neg hg]
        rw [hlook]
        simp [List.mem_cons, hrx]

/-- The `statuses` component of the set fold ignores the map and the missing
set. -/
lemma c3_fold_statuses (qm : Bool) :
    ∀ (ps : List (Nat × NsecSetC3)) (sts : List NsecStatusC3) (sbr : SbrMap) (miss : List RespC3),
      (ps.foldl (c3SetStep qm) (sts, sbr, miss)).1 =
        ps.foldl
          (fun acc p => if (c3MkStatus p).valid ∧ c3MkStatus p ∉ acc then acc ++ [c3MkStatus p] else acc)
          sts := by
  intro ps
  induction ps with
  | nil => intro sts sbr miss; rfl
  | cons p t ih =>
      intro sts sbr miss
      simp only [List.foldl_cons, c3SetStep]
      rw [ih]

/-- The tracked map after the set fold agrees, entrywise, with the
retained-status recursion. -/
lemma c3_fold_lookup (qm : Bool) (r : RespC3) :
    ∀ (ps : List (Nat × NsecSetC3)) (sts : List NsecStatusC3) (sbr : SbrMap) (miss : List RespC3),
      sbrLookup r (ps.foldl (c3SetStep qm) (sts, sbr, miss)).2.1 =
        retainedFrom qm ps r (sbrLookup r sbr) := by
  intro ps
  induction ps with
  | nil => intro sts sbr miss; rfl
  | cons p t ih =>
      intro sts sbr miss
      simp only [List.foldl_cons, c3SetStep]
      rw [ih]
      unfold retainedFrom
      simp only [List.foldl_cons]
      congr 1
      rw [c3_resp_fold_lookup]
      by_cases hmem : r ∈ p.2.resps
      · rw [if_pos hmem, if_pos hmem]
        rfl
      · rw [if_neg hmem, if_neg hmem]

/-- Distinctness of the dict's keys (true of any Python dict). -/
def sbrWF (l : SbrMap) : Prop := (l.map (fun p => p.1)).Nodup

lemma sbrErase_keys_subset {r x : RespC3} {l : SbrMap}
    (h : x ∈ (sbrErase r l).map (fun p => p.1)) : x ∈ l.map (fun p => p.1) := by
  induction l with
  | nil => simp at h
  | cons p t ih =>
      by_cases hp : p.1 = r
      · rw [sbrErase_cons, if_pos hp] at h
        exact List.mem_cons_of_mem _ (ih h)
      · rw [sbrErase_cons, if_neg hp, List.map_cons] at h
        rcases List.mem_cons.mp h with rfl | h'
        · exact List.mem_cons_self _ _
        · exact List.mem_cons_of_mem _ (ih h')

lemma sbrWF_erase (r : RespC3) {l : SbrMap} (h : sbrWF l) : sbrWF (sbrErase r l) := by
  induction l with
  | nil => exact h
  | cons p t ih =>
      rcases List.nodup_cons.mp h with ⟨hp, ht⟩
      by_cases hpr : p.1 = r
      · rw [sbrWF, sbrErase_cons, if_pos hpr]
        exact ih ht
      · rw [sbrWF, sbrErase_cons, if_neg hpr, List.map_cons]
        exact List.nodup_cons.mpr ⟨fun hc => hp (sbrErase_keys_subset hc), ih ht⟩

lemma sbrInsert_keys_subset {r x : RespC3} {s : NsecStatusC3} {l : SbrMap}
    (h : x ∈ (sbrInsert r s l).map (fun p => p.1)) :
    x = r ∨ x ∈ l.map (fun p => p.1) := by
  induction l with
  | nil => simpa using h
  | cons p t ih =>
      by_cases hp : p.1 = r
      · rw [sbrInsert_cons, if_pos hp, List.map_cons] at h
        rcases List.mem_cons.mp h with rfl | h'
        · exact Or.inl rfl
        · exact Or.inr (List.mem_cons_of_mem _ h')
      · rw [sbrInsert_cons, if_neg hp, List.map_cons] at h
        rcases List.mem_cons.mp h with rfl | h'
        · exact Or.inr (List.mem_cons_self _ _)
        · rcases ih h' with h'' | h''
          · exact Or.inl h''
          · exact Or.inr (List.mem_cons_of_mem _ h'')

lemma sbrWF_insert (r : RespC3) (s : NsecStatusC3) {l : SbrMap} (h : sbrWF l) :
    sbrWF (sbrInsert r s l) := by
  induction l with
  | nil => simp [sbrWF]
  | cons p t ih =>
      rcases List.nodup_cons.mp h with ⟨hp, ht⟩
      by_cases hpr : p.1 = r
      · rw [sbrWF, sbrInsert_cons, if_pos hpr, List.map_cons]
        refine List.nodup_cons.mpr ⟨?_, ht⟩
        intro hc
        apply hp
        show p.1 ∈ List.map (fun p => p.1) t
        rw [hpr]
        simpa using hc
      · rw [sbrWF, sbrInsert_cons, if_neg hpr, List.map_cons]
        refine List.nodup_cons.mpr ⟨?_, ih ht⟩
        intro hc
        rcases sbrInsert_keys_subset hc with rfl | hc'
        · exact hpr rfl
        · exact hp hc'

lemma sbr_mem_lookup {l : SbrMap} (hWF : sbrWF l) {e : RespC3 × NsecStatusC3} (he : e ∈ l) :
    sbrLookup e.1 l = some e.2 := by
  induction l with
  | nil => cases he
  | cons p t ih =>
      rcases List.nodup_cons.mp hWF with ⟨hp, ht⟩
      rcases List.mem_cons.mp he with rfl | he'
      · simp
      · have hne : ¬ p.1 = e.1 := by
          intro hc
          apply hp
          show p.1 ∈ List.map (fun p => p.1) t
          rw [hc]
          exact List.mem_map.mpr ⟨e, he', rfl⟩
        simp [hne, ih ht he']

lemma sbr_lookup_mem {l : SbrMap} {r : RespC3} {s : NsecStatusC3}
    (h : sbrLookup r l = some s) : (r, s) ∈ l := by
  induction l with
  | nil => simp at h
  | cons p t ih =>
      rw [sbrLookup_cons] at h
      by_cases hp : p.1 = r
      · rw [if_pos hp] at h
        have hs : p.2 = s := by simpa using h
        have : p = (r, s) := by
          cases p with
          | mk a b => simp at hp hs; rw [hp, hs]
        exact this ▸ List.mem_cons_self _ _
      · rw [if_neg hp] at h
        exact List.mem_cons_of_mem _ (ih h)

/-- The tracked map built by the set fold has distinct keys. -/
lemma c3_fold_WF (qm : Bool) :
    ∀ (ps : List (Nat × NsecSetC3)) (sts : List NsecStatusC3) (sbr : SbrMap)
      (miss : List RespC3), sbrWF sbr →
      sbrWF (ps.foldl (c3SetStep qm) (sts, sbr, miss)).2.1 := by
  intro ps
  induction ps with
  | nil => intro sts sbr miss h; exact h
  | cons p t ih =>
      intro sts sbr miss h
      simp only [List.foldl_cons, c3SetStep]
      refine ih _ _ _ ?_
      clear ih
      induction p.2.resps generalizing sbr with
      | nil => exact h
      | cons x xs ihr =>
          simp only [List.foldl_cons]
          refine ihr _ ?_
          by_cases hv : (c3MkStatus p).valid
          · rw [if_pos hv]; exact sbrWF_erase x h
          · rw [if_neg hv]
            by_cases hg : (qm || x.rdRa) = true
            · rw [if_pos hg]; exact sbrWF_insert x _ h
            · rw [if_neg hg]; exact h

/-- Membership in the append-if-new fold that builds the final status list
from the valid statuses and the tracked map. -/
lemma c3_appendIfNew_mem :
    ∀ (l : SbrMap) (acc : List NsecStatusC3) (x : NsecStatusC3),
      x ∈ l.foldl (fun sts e => if e.2 ∉ sts then sts ++ [e.2] else sts) acc ↔
        x ∈ acc ∨ ∃ e ∈ l, e.2 = x := by
  intro l
  induction l with
  | nil => intro acc x; simp
  | cons e t ih =>
      intro acc x
      simp only [List.foldl_cons]
      rw [ih]
      have hstep : x ∈ (if e.2 ∉ acc then acc ++ [e.2] else acc) ↔ x ∈ acc ∨ x = e.2 := by
        by_cases hmem : e.2 ∈ acc
        · rw [if_neg (by simpa using hmem)]
          constructor
          · exact Or.inl
          · rintro (h | rfl)
            · exact h
            · exact hmem
        · rw [if_pos hmem]
          simp [List.mem_append]
      rw [hstep]
      constructor
      · rintro ((h | rfl) | ⟨e', he', rfl⟩)
        · exact Or.inl h
        · exact Or.inr ⟨e, List.mem_cons_self _ _, rfl⟩
        · exact Or.inr ⟨e', List.mem_cons_of_mem _ he', rfl⟩
      · rintro (h | ⟨e', he', rfl⟩)
        · exact Or.inl (Or.inl h)
        · rcases List.mem_cons.mp he' with rfl | he''
          · exact Or.inl (Or.inr rfl)
          · exact Or.inr ⟨e', he'', rfl⟩

/-- The append-if-new fold extends its accumulator. -/
lemma c3_appendIfNew_prefix :
    ∀ (l : SbrMap) (acc : List NsecStatusC3),
      ∃ tail, l.foldl (fun sts e => if e.2 ∉ sts then sts ++ [e.2] else sts) acc = acc ++ tail := by
  intro l
  induction l with
  | nil => intro acc; exact ⟨[], by simp⟩
  | cons e t ih =>
      intro acc
      simp only [List.foldl_cons]
      by_cases hmem : e.2 ∉ acc
      · rw [if_pos hmem]
        rcases ih (acc ++ [e.2]) with ⟨tail, htail⟩
        exact ⟨[e.2] ++ tail, by rw [htail, List.append_assoc]⟩
      · rw [if_neg hmem]
        exact ih acc

/-- Claim C3, amended: during the iteration over a negative response's NSEC
sets, `status_by_response` never holds valid statuses; a valid status
deletes the tracked entry of each response the set covers, while an invalid
status is stored for a response only when the negative response's qname
equals the query qname or the response had recursion desired and available,
each store overwriting the previous one.  The entry retained for a response
is therefore the last stored invalid status not followed by a later valid
status for that response — not the first valid status.  The returned list is
the distinct valid statuses in construction order followed by the distinct
retained invalid statuses, so a status appears in it exactly when it is
valid or is retained for some response. -/
theorem c3_negative_response_status_amended (qm : Bool) (negResps : List RespC3)
    (sets : List NsecSetC3) :
    (∀ r, sbrLookup r (negRespStatuses qm negResps sets).2.1 = retainedSpec qm sets r) ∧
      (∃ tail, (negRespStatuses qm negResps sets).1 = validsSpec sets ++ tail) ∧
      (∀ s, s ∈ (negRespStatuses qm negResps sets).1 ↔
        s ∈ validsSpec sets ∨ ∃ r, retainedSpec qm sets r = some s) := by
  have hmap : ∀ r, sbrLookup r (negRespStatuses qm negResps sets).2.1 = retainedSpec qm sets r := by
    intro r
    unfold negRespStatuses
    simp only
    rw [c3_fold_lookup]
    rfl
  have hsts :
      (negRespStatuses qm negResps sets).1 =
        ((sets.enum).foldl (c3SetStep qm) ([], [], negResps)).2.1.foldl
          (fun sts e => if e.2 ∉ sts then sts ++ [e.2] else sts) (validsSpec sets) := by
    unfold negRespStatuses
    simp only
    rw [c3_fold_statuses]
    rfl
  have hWF : sbrWF (negRespStatuses qm negResps sets).2.1 := by
    unfold negRespStatuses
    simp only
    exact c3_fold_WF qm sets.enum [] [] negResps (by simp [sbrWF])
  refine ⟨hmap, ?_, ?_⟩
  · rw [hsts]
    exact c3_appendIfNew_prefix _ _
  · intro s
    rw [hsts, c3_appendIfNew_mem]
    have hsbr : (negRespStatuses qm negResps sets).2.1 =
        ((sets.enum).foldl (c3SetStep qm) ([], [], negResps)).2.1 := rfl
    constructor
    · rintro (h | ⟨e, he, rfl⟩)
      · exact Or.inl h
      · refine Or.inr ⟨e.1, ?_⟩
        rw [← hmap e.1, hsbr]
        exact sbr_mem_lookup (hsbr ▸ hWF) he
    · rintro (h | ⟨r, hr⟩)
      · exact Or.inl h
      · refine Or.inr ⟨(r, s), ?_, rfl⟩
        have := hmap r
        rw [hr] at this
        exact hsbr ▸ sbr_lookup_mem this

/-- A consequence of claim C3 as stated: an invalid status is returned only
for a response that no valid NSEC-set status covers (since under the claim
the first valid status wins the per-response tracking). -/
def c3ClaimConsequence (qm : Bool) (negResps : List RespC3) (sets : List NsecSetC3) : Prop :=
  ∀ s ∈ (negRespStatuses qm negResps sets).1, s.valid = false →
    ∃ r ∈ sets.flatMap (fun st => st.resps),
      r ∈ (((sets.get? s.setIdx).map (fun st => st.resps)).getD []) ∧
        ∀ st ∈ sets, st.valid = true → r ∉ st.resps

instance (qm : Bool) (negResps : List RespC3) (sets : List NsecSetC3) :
    Decidable (c3ClaimConsequence qm negResps sets) := by
  unfold c3ClaimConsequence; infer_instance

/-- Claim C3, counterexample: one response covered first by a valid NSEC set
and then by an invalid one.  The valid status does win momentarily (it
deletes the tracked entry), but the later invalid set re-stores its status,
so the returned list contains the invalid status even though the response
has a valid proof — contradicting the claim that the first valid status
wins and invalid statuses are retained only when no set is valid for the
response. -/
theorem c3_counterexample :
    (negRespStatuses true [⟨0, false⟩]
        [⟨true, [⟨0, false⟩]⟩, ⟨false, [⟨0, false⟩]⟩]).1 = [⟨0, true⟩, ⟨1, false⟩] ∧
      ¬ c3ClaimConsequence true [⟨0, false⟩]
          [⟨true, [⟨0, false⟩]⟩, ⟨false, [⟨0, false⟩]⟩] := by
  exact ⟨by decide, by decide⟩

/-! ## The analysis graph

`OfflineDomainNameAnalysis` objects form a graph linked by dependency maps
(`cname_targets`, `mx_targets`, `external_signers`, `ns_dependencies`) and
ancestry (`parent`, `dlv_parent`).  Nodes are identified by naturals.  The
collector-built portion of a node (its name, queries, and links) never
changes during evaluation and lives in `GraphStatic`; the evaluator-owned
result fields live in the mutable state `RState`. -/

/-- Component status values `Status.RRSET_STATUS_{SECURE,INSECURE,BOGUS,NON_EXISTENT}`. -/
inductive RStatus
  | secure | insecure | bogus | nonExistent
  deriving DecidableEq, Repr

/-- The `response_component_status` mapping: component identity to status. -/
abbrev RcsMap := List (Nat × RStatus)

/-- A response as seen by `_populate_name_status`: the
`recursion_desired_and_available()` flag and the outcome of
`is_upward_referral(qname_obj.zone.name)` (both computed by the external
`Response` module). -/
structure RespNS where
  rdRa : Bool
  upRefOfZone : Bool
  deriving DecidableEq, Repr

/-- A `NegativeResponseInfo` as seen by `_populate_name_status`. -/
structure NegInfoNS where
  qname : DName
  rdtype : RdType
  resps : List RespNS
  deriving DecidableEq, Repr

/-- An answer `RRsetInfo` as seen by `_populate_name_status`: owner and
rdtype, the optional `dname_info` owner/rdtype, and for each entry of
`cname_info_from_dname` the pair of its `dname_info` owner/rdtype and its
own owner/rdtype. -/
structure AnswerNS where
  owner : DName
  rdtype : RdType
  dnameInfo : Option (DName × RdType)
  cnameFromDname : List ((DName × RdType) × (DName × RdType))
  deriving DecidableEq, Repr

/-- One entry of a node's `queries` map, as read by `_populate_name_status`.
`hasProperReferral` abstracts the per-response scan
`is_referral(name, rdtype, bailiwick, proper=True)` over the query's
responses (offline.py 654-663). -/
structure QueryNS where
  qname : DName
  rdtype : RdType
  answers : List AnswerNS
  nodata : List NegInfoNS
  nxdomains : List NegInfoNS
  hasProperReferral : Bool
  deriving DecidableEq, Repr

/-- One entry of the two-level `cname_targets` map: alias owner, target
name, and the (possibly absent) analysed target node. -/
structure CnameTargetNS where
  cname : DName
  target : DName
  obj : Option Nat
  deriving DecidableEq, Repr

/-- The collector-built portion of a node. -/
structure NodeStatic where
  name : DName
  stub : Bool
  referralRdtype : Option RdType
  queries : List QueryNS
  cnames : List CnameTargetNS
  mxTargets : List (Option Nat)
  externalSigners : List (Option Nat)
  nsDeps : List (Option Nat)
  parent : Option Nat
  dlvParent : Option Nat
  deriving DecidableEq, Repr

/-- The static analysis graph. -/
structure GraphStatic where
  n : Nat
  node : Nat → NodeStatic

/-- A node's evaluator-owned result fields, all absent (`None`) before the
evaluator runs.  The name-status fields carry their computed values; the
fields whose contents are modelled separately (per-RRset RRSIG bindings in
the C2 section, negative-response statuses in the C3 section, delegation
payloads) are recorded here as populated-markers, which is all
`populate_status`'s control flow reads of them. -/
structure NRes where
  status : Option NameStatus
  yxdomain : Option (List DName)
  yxrrset : Option (List (DName × RdType))
  nxrrset : Option (List (DName × RdType))
  indexed : Option Unit
  rrsigStatus : Option Unit
  nodataStatus : Option Unit
  nxdomainStatus : Option Unit
  keyRoles : Option Unit
  delegationStatus : Option Unit
  dlvDsStatus : Option Unit
  dnskeyStatus : Option Unit
  rcs : Option RcsMap
  deriving DecidableEq, Repr

/-- The initial (unevaluated) node result. -/
def NRes.empty : NRes :=
  ⟨none, none, none, none, none, none, none, none, none, none, none, none, none⟩

/-- The evaluator state: result fields per node. -/
abbrev RState := Nat → NRes

/-- The state before any evaluation. -/
def initState : RState := fun _ => NRes.empty

/-- Python set add (`s.add(x)`), on a membership-faithful list model. -/
def addName (x : DName) (l : List DName) : List DName := if x ∈ l then l else l ++ [x]

/-- Python set add for (name, rdtype) pairs. -/
def addPair (x : DName × RdType) (l : List (DName × RdType)) : List (DName × RdType) :=
  if x ∈ l then l else l ++ [x]

/-- The accumulating `yxdomain`, `yxrrset`, `nxrrset` sets of
`_populate_name_status`. -/
structure NSAcc where
  yxd : List DName
  yxr : List (DName × RdType)
  nxr : List (DName × RdType)
  deriving DecidableEq, Repr

/-- Processing of one answer RRset (offline.py 629-636). -/
def processAnswer (acc : NSAcc) (a : AnswerNS) : NSAcc :=
  let acc1 : NSAcc :=
    { acc with yxd := addName a.owner acc.yxd, yxr := addPair (a.owner, a.rdtype) acc.yxr }
  let acc2 : NSAcc :=
    match a.dnameInfo with
    | some p => { acc1 with yxr := addPair p acc1.yxr }
    | none => acc1
  a.cnameFromDname.foldl (fun acc c => { acc with yxr := addPair c.2 (addPair c.1 acc.yxr) }) acc2

/-- Processing of one NODATA `NegativeResponseInfo` (offline.py 637-643). -/
def processNodata (qn : DName) (acc : NSAcc) (ni : NegInfoNS) : NSAcc :=
  ni.resps.foldl
    (fun acc r =>
      if ni.qname = qn ∨ r.rdRa then
        let acc1 := if ¬ r.upRefOfZone then { acc with yxd := addName ni.qname acc.yxd } else acc
        { acc1 with nxr := addPair (ni.qname, ni.rdtype) acc1.nxr }
      else acc) acc

/-- Processing of one NXDOMAIN `NegativeResponseInfo` (offline.py 644-648). -/
def processNxdomain (qn : DName) (acc : NSAcc) (ni : NegInfoNS) : NSAcc :=
  ni.resps.foldl
    (fun acc r =>
      if ni.qname = qn ∨ r.rdRa then { acc with nxr := addPair (ni.qname, ni.rdtype) acc.nxr }
      else acc) acc

/-- Processing of one query of the node's `queries` map: the three
response-info loops, then the proper-referral check, which only runs for a
query on the node's own name while the name is not yet in `yxdomain` and
whose rdtype is the referral rdtype or NS (offline.py 621-663). -/
def processQuery (name : DName) (refRd : Option RdType) (acc : NSAcc) (q : QueryNS) : NSAcc :=
  let acc1 := q.answers.foldl processAnswer acc
  let acc2 := q.nodata.foldl (processNodata q.qname) acc1
  let acc3 := q.nxdomains.foldl (processNxdomain q.qname) acc2
  if name = q.qname ∧ name ∉ acc3.yxd then
    if some q.rdtype = refRd ∨ q.rdtype = RdType.ns then
      (if q.hasProperReferral then { acc3 with yxd := addName name acc3.yxd } else acc3)
    else acc3
  else acc3

/-- The final NXDOMAIN scan of `_populate_name_status` (offline.py 682-687):
a non-DS query with an NXDOMAIN proof whose qname equals the query's qname. -/
def nxdomainCond (queries : List QueryNS) : Bool :=
  queries.any (fun q => !(q.rdtype == RdType.ds) && q.nxdomains.any (fun x => x.qname == q.qname))

/-- One step of the CNAME-propagation loop of `_populate_name_status`
(offline.py 666-676), parameterised by the recursive call `rec`.  Skips
unanalysed targets and self-references; recurses into the target when its
`yxrrset` is still unset; then folds the target's `yxrrset` entries whose
owner is the target name into this node's `yxrrset` under the alias owner.
If the target's `yxrrset` is still `None` after the recursive call (only
possible when the target sits on the current trace, which cannot happen
because every node on the trace has already set its `yxrrset` at entry),
Python would raise TypeError iterating `None`; the model reads the empty
set there. -/
def pnsCnameStep (rec : RState → List Nat → Nat → RState) (trace : List Nat) (i : Nat)
    (st : RState) (ct : CnameTargetNS) : RState :=
  match ct.obj with
  | none => st
  | some m =>
    if m = i then st
    else
      let st' := if ((st m).yxrrset).isNone then rec st (trace ++ [i]) m else st
      let contrib := (((st' m).yxrrset).getD []).foldl
        (fun l pr => if pr.1 = ct.target then addPair (ct.cname, pr.2) l else l)
        (((st' i).yxrrset).getD [])
      Function.update st' i { st' i with yxrrset := some contrib }

/-- The final status assignment of `_populate_name_status`
(offline.py 678-687). -/
def pnsFinalize (gs : GraphStatic) (st : RState) (i : Nat) : RState :=
  let r := st i
  let st0 := if (gs.node i).name ∈ (r.yxdomain.getD []) then some NameStatus.noerror else r.status
  let st1 :=
    if st0 = some NameStatus.indeterminate then
      (if nxdomainCond (gs.node i).queries then some NameStatus.nxdomain else st0)
    else st0
  Function.update st i { r with status := st1 }

/-- `_populate_name_status` (offline.py 604-687), fuel-indexed: return
unchanged on a trace revisit; otherwise set `status` to INDETERMINATE and
the three sets to their per-query accumulation, run the CNAME-propagation
loop (which may recurse into analysed CNAME targets with the extended
trace), and assign the final status.  The fuel only bounds the recursion
depth; the adequacy theorems show any fuel beyond the number of untraced
nodes gives the same result. -/
def pns : Nat → GraphStatic → RState → List Nat → Nat → RState
  | 0, _, st, _, _ => st
  | fuel + 1, gs, st, trace, i =>
    if i ∈ trace then st
    else
      let nd := gs.node i
      let acc := nd.queries.foldl (processQuery nd.name nd.referralRdtype) ⟨[], [], []⟩
      let st1 := Function.update st i
        { st i with
          status := some NameStatus.indeterminate
          yxdomain := some acc.yxd
          yxrrset := some acc.yxr
          nxrrset := some acc.nxr }
      let st2 := nd.cnames.foldl
        (pnsCnameStep (fun st tr m => pns fuel gs st tr m) trace i) st1
      pnsFinalize gs st2 i
termination_by structural fuel => fuel

/-- The evaluator fields other than the four name-status fields, bundled
for frame reasoning. -/
def NRes.evalMarks (r : NRes) :=
  (r.indexed, r.rrsigStatus, r.nodataStatus, r.nxdomainStatus, r.keyRoles,
    r.delegationStatus, r.dlvDsStatus, r.dnskeyStatus, r.rcs)

lemma pnsFinalize_ne {gs : GraphStatic} {st : RState} {i j : Nat} (h : j ≠ i) :
    pnsFinalize gs st i j = st j := by
  unfold pnsFinalize
  exact Function.update_noteq h _ _

/-- A node on the trace is left untouched by the CNAME-propagation fold. -/
lemma foldl_cnameStep_untouched (rec : RState → List Nat → Nat → RState) (trace : List Nat)
    (i j : Nat) (hij : j ≠ i)
    (hrec : ∀ (st : RState) (m : Nat), (rec st (trace ++ [i]) m) j = st j) :
    ∀ (cts : List CnameTargetNS) (st : RState),
      (cts.foldl (pnsCnameStep rec trace i) st) j = st j := by
  intro cts
  induction cts with
  | nil => intro st; rfl
  | cons ct rest ih =>
      intro st
      rw [List.foldl_cons, ih]
      rcases hobj : ct.obj with _ | m
      · simp only [pnsCnameStep, hobj]
      · simp only [pnsCnameStep, hobj]
        by_cases hm : m = i
        · rw [if_pos hm]
        · rw [if_neg hm]
          rw [Function.update_noteq hij]
          by_cases hnone : ((st m).yxrrset).isNone
          · rw [if_pos hnone, hrec]
          · rw [if_neg hnone]

/-- A node on the trace is left untouched by `_populate_name_status`. -/
lemma pns_untouched (gs : GraphStatic) :
    ∀ (fuel : Nat) (st : RState) (trace : List Nat) (i j : Nat), j ∈ trace →
      (pns fuel gs st trace i) j = st j := by
  intro fuel
  induction fuel with
  | zero => intro st trace i j _; rfl
  | succ fuel ih =>
      intro st trace i j hj
      by_cases hi : i ∈ trace
      · simp only [pns, if_pos hi]
      · have hij : j ≠ i := fun hc => hi (hc ▸ hj)
        simp only [pns, if_neg hi]
        rw [pnsFinalize_ne hij]
        rw [foldl_cnameStep_untouched _ _ _ _ hij
          (fun st m => ih st (trace ++ [i]) m j (List.mem_append_left _ hj))]
        exact Function.update_noteq hij _ _

/-- The CNAME-propagation fold changes no evaluator field outside the four
name-status fields. -/
lemma foldl_cnameStep_marks (rec : RState → List Nat → Nat → RState) (trace : List Nat)
    (i j : Nat)
    (hrec : ∀ (st : RState) (m : Nat), ((rec st (trace ++ [i]) m) j).evalMarks = (st j).evalMarks) :
    ∀ (cts : List CnameTargetNS) (st : RState),
      ((cts.foldl (pnsCnameStep rec trace i) st) j).evalMarks = (st j).evalMarks := by
  intro cts
  induction cts with
  | nil => intro st; rfl
  | cons ct rest ih =>
      intro st
      rw [List.foldl_cons, ih]
      rcases hobj : ct.obj with _ | m
      · simp only [pnsCnameStep, hobj]
      · simp only [pnsCnameStep, hobj]
        by_cases hm : m = i
        · rw [if_pos hm]
        · rw [if_neg hm]
          by_cases hj : j = i
          · subst hj
            rw [Function.update_same]
            by_cases hnone : ((st m).yxrrset).isNone
            · rw [if_pos hnone]
              exact hrec st m
            · rw [if_neg hnone]
              rfl
          · rw [Function.update_noteq hj]
            by_cases hnone : ((st m).yxrrset).isNone
            · rw [if_pos hnone]
              exact hrec st m
            · rw [if_neg hnone]

/-- `_populate_name_status` changes no evaluator field outside the four
name-status fields: no RRSIG, negative-response, delegation, key-role,
DNSKEY or component-status state is entered or modified. -/
lemma pns_marks (gs : GraphStatic) :
    ∀ (fuel : Nat) (st : RState) (trace : List Nat) (i j : Nat),
      ((pns fuel gs st trace i) j).evalMarks = (st j).evalMarks := by
  intro fuel
  induction fuel with
  | zero => intro st trace i j; rfl
  | succ fuel ih =>
      intro st trace i j
      by_cases hi : i ∈ trace
      · simp only [pns, if_pos hi]
      · simp only [pns, if_neg hi]
        have hfin : ∀ (st' : RState),
            ((pnsFinalize gs st' i) j).evalMarks = (st' j).evalMarks := by
          intro st'
          by_cases hj : j = i
          · subst hj
            unfold pnsFinalize
            rw [Function.update_same]
            rfl
          · rw [pnsFinalize_ne hj]
        rw [hfin]
        rw [foldl_cnameStep_marks _ _ _ _ (fun st m => ih st (trace ++ [i]) m j)]
        by_cases hj : j = i
        · subst hj
          rw [Function.update_same]
          rfl
        · rw [Function.update_noteq hj]

/-- During the CNAME-propagation fold, the running node's `status`,
`yxdomain` and `nxrrset` fields are not altered (only its `yxrrset`
grows). -/
lemma foldl_cnameStep_i_fields (rec : RState → List Nat → Nat → RState) (trace : List Nat)
    (i : Nat) (hrec : ∀ (st : RState) (m : Nat), (rec st (trace ++ [i]) m) i = st i) :
    ∀ (cts : List CnameTargetNS) (st : RState),
      ((cts.foldl (pnsCnameStep rec trace i) st) i).status = (st i).status ∧
        ((cts.foldl (pnsCnameStep rec trace i) st) i).yxdomain = (st i).yxdomain ∧
        ((cts.foldl (pnsCnameStep rec trace i) st) i).nxrrset = (st i).nxrrset := by
  intro cts
  induction cts with
  | nil => intro st; exact ⟨rfl, rfl, rfl⟩
  | cons ct rest ih =>
      intro st
      rw [List.foldl_cons]
      rcases ih (pnsCnameStep rec trace i st ct) with ⟨h1, h2, h3⟩
      rw [h1, h2, h3]
      rcases hobj : ct.obj with _ | m
      · simp only [pnsCnameStep, hobj]
        refine ⟨?_, ?_, ?_⟩ <;> trivial
      · simp only [pnsCnameStep, hobj]
        by_cases hm : m = i
        · rw [if_pos hm]
          refine ⟨?_, ?_, ?_⟩ <;> trivial
        · rw [if_neg hm]
          rw [Function.update_same]
          by_cases hnone : ((st m).yxrrset).isNone
          · rw [if_pos hnone, hrec]
            refine ⟨?_, ?_, ?_⟩ <;> trivial
          · rw [if_neg hnone]
            refine ⟨?_, ?_, ?_⟩ <;> trivial

/-- The per-query accumulation of `_populate_name_status` on a node's
queries. -/
def nsAccOf (gs : GraphStatic) (i : Nat) : NSAcc :=
  (gs.node i).queries.foldl
    (processQuery (gs.node i).name (gs.node i).referralRdtype) ⟨[], [], []⟩

lemma pnsFinalize_status (gs : GraphStatic) (st : RState) (i : Nat) :
    ((pnsFinalize gs st i) i).status =
      (if (if (gs.node i).name ∈ ((st i).yxdomain.getD []) then some NameStatus.noerror
            else (st i).status) = some NameStatus.indeterminate then
        (if nxdomainCond (gs.node i).queries then some NameStatus.nxdomain
          else (if (gs.node i).name ∈ ((st i).yxdomain.getD []) then some NameStatus.noerror
            else (st i).status))
      else (if (gs.node i).name ∈ ((st i).yxdomain.getD []) then some NameStatus.noerror
        else (st i).status)) := by
  unfold pnsFinalize
  rw [Function.update_same]

lemma pnsFinalize_yxdomain (gs : GraphStatic) (st : RState) (i : Nat) :
    ((pnsFinalize gs st i) i).yxdomain = (st i).yxdomain := by
  unfold pnsFinalize
  rw [Function.update_same]

/-- Claim C1, amended: after `_populate_name_status` runs on a node that is
not a trace revisit, the node's final status is NOERROR if its own name is
in its computed `yxdomain`; otherwise NXDOMAIN if some query whose rdtype is
not DS produced an NXDOMAIN proof whose qname equals that query's qname
(not necessarily the node's own name); otherwise INDETERMINATE. -/
theorem c1_name_status_amended (fuel : Nat) (gs : GraphStatic) (st : RState)
    (trace : List Nat) (i : Nat) (hi : i ∉ trace) :
    ((pns (fuel + 1) gs st trace i) i).status =
      some (if (gs.node i).name ∈ (((pns (fuel + 1) gs st trace i) i).yxdomain).getD []
        then NameStatus.noerror
        else if nxdomainCond (gs.node i).queries then NameStatus.nxdomain
        else NameStatus.indeterminate) := by
  simp only [pns, if_neg hi]
  have huntouched : ∀ (st' : RState) (m : Nat),
      (pns fuel gs st' (trace ++ [i]) m) i = st' i :=
    fun st' m => pns_untouched gs fuel st' (trace ++ [i]) m i (List.mem_append_right _ (by simp))
  rw [pnsFinalize_status, pnsFinalize_yxdomain]
  rcases foldl_cnameStep_i_fields (fun st tr m => pns fuel gs st tr m) trace i huntouched
      (gs.node i).cnames
      (Function.update st i
        { st i with
          status := some NameStatus.indeterminate
          yxdomain := some (nsAccOf gs i).yxd
          yxrrset := some (nsAccOf gs i).yxr
          nxrrset := some (nsAccOf gs i).nxr }) with ⟨h1, h2, _h3⟩
  rw [show nsAccOf gs i =
      (gs.node i).queries.foldl
        (processQuery (gs.node i).name (gs.node i).referralRdtype) ⟨[], [], []⟩ from rfl] at h1 h2
  rw [h1, h2, Function.update_same]
  by_cases hmem : (gs.node i).name ∈
      ((gs.node i).queries.foldl
        (processQuery (gs.node i).name (gs.node i).referralRdtype) ⟨[], [], []⟩ : NSAcc).yxd
  · simp [hmem]
  · by_cases hnx : nxdomainCond (gs.node i).queries <;> simp [hmem, hnx]

/-- The final-status rule exactly as claim C1 states it: the NXDOMAIN test
looks for an NXDOMAIN proof for the NODE's own name. -/
def c1ClaimStatus (gs : GraphStatic) (st : RState) (i : Nat) : NameStatus :=
  if (gs.node i).name ∈ ((st i).yxdomain).getD [] then NameStatus.noerror
  else if (gs.node i).queries.any
      (fun q => !(q.rdtype == RdType.ds) &&
        q.nxdomains.any (fun x => x.qname == (gs.node i).name)) then NameStatus.nxdomain
  else NameStatus.indeterminate

/-- A node whose only query is for a different name (as a DLV query for the
node's DLV name would be) that produced an NXDOMAIN proof for that query's
qname. -/
def c1ExNode : NodeStatic :=
  { name := "a", stub := false, referralRdtype := none,
    queries := [⟨"b", RdType.a, [], [], [⟨"b", RdType.a, []⟩], false⟩],
    cnames := [], mxTargets := [], externalSigners := [], nsDeps := [],
    parent := none, dlvParent := none }

/-- The one-node graph around `c1ExNode`. -/
def c1ExGs : GraphStatic := { n := 1, node := fun _ => c1ExNode }

/-- Claim C1, counterexample: the evaluator marks the node NXDOMAIN because
a non-DS query produced an NXDOMAIN proof for that query's qname "b", even
though no NXDOMAIN proof exists for the node's own name "a"; the claim as
stated demands INDETERMINATE here. -/
theorem c1_counterexample :
    ((pns 1 c1ExGs initState [] 0) 0).status = some NameStatus.nxdomain ∧
      c1ClaimStatus c1ExGs (pns 1 c1ExGs initState [] 0) 0 = NameStatus.indeterminate := by
  exact ⟨by decide, by decide⟩

/-- Witness for C1's amended theorem at a concrete input. -/
theorem c1_name_status_amended_witness :
    ((pns 1 c1ExGs initState [] 0) 0).status =
      some (if (c1ExGs.node 0).name ∈ (((pns 1 c1ExGs initState [] 0) 0).yxdomain).getD []
        then NameStatus.noerror
        else if nxdomainCond (c1ExGs.node 0).queries then NameStatus.nxdomain
        else NameStatus.indeterminate) :=
  c1_name_status_amended 0 c1ExGs initState [] 0 (by simp)

/-! ## `populate_status` (offline.py 541-602)

    def populate_status(self, trusted_keys, supported_algs=None, supported_digest_algs=None,
                        is_dlv=False, trace=None, follow_mx=True):
        if trace is None:
            trace = []
        if self in trace:
            self._populate_name_status()
            return
        if self.rrsig_status is not None:
            return
        if self.stub:
            return
        if supported_algs is not None:
            supported_algs.intersection_update(crypto._supported_algs)
        else:
            supported_algs = crypto._supported_algs
        if supported_digest_algs is not None:
            supported_digest_algs.intersection_update(crypto._supported_digest_algs)
        else:
            supported_digest_algs = crypto._supported_digest_algs
        [recurse into cname/mx/signer/ns dependencies with trace + [self], fresh sets;
         recurse into parent and dlv_parent with trace + [self], passing the same sets]
        self._populate_name_status(); self._index_dnskeys();
        self._populate_rrsig_status_all(supported_algs);
        self._populate_nodata_status(...); self._populate_nxdomain_status(...);
        self._finalize_key_roles()
        if not is_dlv: self._populate_delegation_status(...)
        if self.dlv_parent is not None: self._populate_ds_status(DLV, ...)
        self._populate_dnskey_status(trusted_keys)

`crypto._supported_algs` / `_supported_digest_algs` (the external `crypto`
facade) are the environment below.  The caller-supplied sets are mutated in
place by `intersection_update`; the model threads their contents and
returns them alongside the state.  `trusted_keys` only shapes the contents
of the per-DNSKEY diagnostics, which the `dnskeyStatus` marker abstracts;
the per-RRset contents of `rrsig_status` are modelled in the C2 section and
the negative-response statuses in the C3 section, so here the populated
fields are recorded as markers. -/

/-- The `crypto` facade's supported algorithm sets. -/
structure CryptoEnv where
  algs : List Nat
  digestAlgs : List Nat

/-- `s.intersection_update(c)`: the new contents of the mutated set. -/
def algInter (s c : List Nat) : List Nat := s.filter (fun x => x ∈ c)

/-- One dependency-list recursion of `populate_status`: visit each analysed
(non-`None`) dependency with fresh (None) supported sets, whose final
contents the caller never sees. -/
def psDeps (rec : RState → Bool → List Nat → Nat → RState × Option (List Nat) × Option (List Nat))
    (trace : List Nat) (i : Nat) (fm : Bool) (st : RState) (objs : List (Option Nat)) : RState :=
  objs.foldl
    (fun st o =>
      match o with
      | none => st
      | some c => (rec st fm (trace ++ [i]) c).1) st

/-- The in-place `intersection_update` of the caller's `supported_algs`
set, or the crypto set itself when the caller passed None
(offline.py 560-563). -/
def mkSa (env : CryptoEnv) (sa : Option (List Nat)) : Option (List Nat) :=
  some (match sa with | some s => algInter s env.algs | none => env.algs)

/-- The in-place `intersection_update` of the caller's
`supported_digest_algs` set (offline.py 564-567). -/
def mkSd (env : CryptoEnv) (sd : Option (List Nat)) : Option (List Nat) :=
  some (match sd with | some s => algInter s env.digestAlgs | none => env.digestAlgs)

/-- The dependency recursions of `populate_status` (offline.py 569-583):
CNAME targets, MX targets (only when `follow_mx`, and called with
`follow_mx=False`), external signers, NS dependencies, each with the
extended trace and fresh supported sets. -/
def psDepsAll (rec1 : RState → Bool → List Nat → Nat →
      RState × Option (List Nat) × Option (List Nat))
    (gs : GraphStatic) (trace : List Nat) (i : Nat) (followMx : Bool) (st : RState) : RState :=
  let st1 := psDeps rec1 trace i true st ((gs.node i).cnames.map (fun ct => ct.obj))
  let st2 := if followMx then psDeps rec1 trace i false st1 (gs.node i).mxTargets else st1
  let st3 := psDeps rec1 trace i true st2 (gs.node i).externalSigners
  psDeps rec1 trace i true st3 (gs.node i).nsDeps

/-- The ancestry recursions of `populate_status` (offline.py 585-589):
parent and DLV parent with the extended trace, passing (and receiving back)
the caller's supported sets. -/
def psAncestry (rec : RState → Option (List Nat) → Option (List Nat) → Bool → Bool →
      List Nat → Nat → RState × Option (List Nat) × Option (List Nat))
    (gs : GraphStatic) (trace : List Nat) (i : Nat) (st4 : RState)
    (sa1 sd1 : Option (List Nat)) : RState × Option (List Nat) × Option (List Nat) :=
  let r5 := match (gs.node i).parent with
    | some p => rec st4 sa1 sd1 false true (trace ++ [i]) p
    | none => (st4, sa1, sd1)
  match (gs.node i).dlvParent with
  | some p => rec r5.1 r5.2.1 r5.2.2 true true (trace ++ [i]) p
  | none => r5

/-- The per-node evaluation sequence of `populate_status` after
`_populate_name_status` (offline.py 593-602), recorded as populated-markers
on the node: `_index_dnskeys`, `_populate_rrsig_status_all`,
`_populate_nodata_status`, `_populate_nxdomain_status`,
`_finalize_key_roles`, `_populate_delegation_status` (unless is_dlv),
`_populate_ds_status(DLV)` (when a DLV parent exists),
`_populate_dnskey_status`. -/
def psMarks (isDlv hasDlv : Bool) (i : Nat) (st7 : RState) : RState :=
  let st8 := Function.update st7 i { st7 i with indexed := some () }
  let st9 := Function.update st8 i { st8 i with rrsigStatus := some () }
  let st10 := Function.update st9 i { st9 i with nodataStatus := some () }
  let st11 := Function.update st10 i { st10 i with nxdomainStatus := some () }
  let st12 := Function.update st11 i { st11 i with keyRoles := some () }
  let st13 := if ¬ isDlv then Function.update st12 i { st12 i with delegationStatus := some () }
    else st12
  let st14 := if hasDlv then Function.update st13 i { st13 i with dlvDsStatus := some () }
    else st13
  Function.update st14 i { st14 i with dnskeyStatus := some () }

/-- The body of `populate_status` past its three entry guards
(offline.py 558-602), parameterised by the recursive call `rec` and by the
name-status populator `recPns`: intersect the supported sets in place,
recurse into dependencies (fresh sets) and ancestry (same sets), then run
`_populate_name_status` (fresh trace) followed by the per-node evaluation
sequence. -/
def psBody (env : CryptoEnv)
    (rec : RState → Option (List Nat) → Option (List Nat) → Bool → Bool → List Nat → Nat →
      RState × Option (List Nat) × Option (List Nat))
    (recPns : RState → List Nat → Nat → RState)
    (gs : GraphStatic) (st : RState) (sa sd : Option (List Nat)) (isDlv followMx : Bool)
    (trace : List Nat) (i : Nat) : RState × Option (List Nat) × Option (List Nat) :=
  let r6 := psAncestry rec gs trace i
    (psDepsAll (fun st fm tr c => rec st none none false fm tr c) gs trace i followMx st)
    (mkSa env sa) (mkSd env sd)
  (psMarks isDlv ((gs.node i).dlvParent).isSome i (recPns r6.1 [] i), r6.2.1, r6.2.2)

/-- `populate_status` (offline.py 541-602), fuel-indexed.  Returns the new
state together with the final contents of the caller-supplied
`supported_algs` and `supported_digest_algs` sets (mutated in place by the
Python code). -/
def populateStatus (env : CryptoEnv) :
    Nat → GraphStatic → RState → Option (List Nat) → Option (List Nat) → Bool → Bool →
      List Nat → Nat → RState × Option (List Nat) × Option (List Nat)
  | 0, _, st, sa, sd, _, _, _, _ => (st, sa, sd)
  | fuel + 1, gs, st, sa, sd, isDlv, followMx, trace, i =>
    if i ∈ trace then (pns fuel gs st [] i, sa, sd)
    else if ((st i).rrsigStatus).isSome then (st, sa, sd)
    else if (gs.node i).stub then (st, sa, sd)
    else psBody env
      (fun st sa sd b fm tr c => populateStatus env fuel gs st sa sd b fm tr c)
      (fun st tr m => pns fuel gs st tr m) gs st sa sd isDlv followMx trace i
termination_by structural fuel => fuel

/-- The per-node evaluation sequence sets the node's `rrsig_status`. -/
lemma psMarks_rrsig_set (isDlv hasDlv : Bool) (i : Nat) (st7 : RState) :
    ((psMarks isDlv hasDlv i st7) i).rrsigStatus = some () := by
  unfold psMarks
  by_cases hd : hasDlv <;> by_cases hv : isDlv <;>
    simp [hd, hv, Function.update_same]

/-- The body of `populate_status` always ends by setting the node's
populated-markers, in particular `rrsig_status`. -/
lemma psBody_rrsig_set (env : CryptoEnv)
    (rec : RState → Option (List Nat) → Option (List Nat) → Bool → Bool → List Nat → Nat →
      RState × Option (List Nat) × Option (List Nat))
    (recPns : RState → List Nat → Nat → RState) (gs : GraphStatic) (st : RState)
    (sa sd : Option (List Nat)) (isDlv followMx : Bool) (trace : List Nat) (i : Nat) :
    (((psBody env rec recPns gs st sa sd isDlv followMx trace i).1) i).rrsigStatus = some () := by
  unfold psBody
  exact psMarks_rrsig_set _ _ _ _

/-- After the body of `populate_status` runs on a node (no revisit, not yet
populated, not a stub), the node's `rrsig_status` is set. -/
lemma populateStatus_body_rrsig_set (env : CryptoEnv) (fuel : Nat) (gs : GraphStatic)
    (st : RState) (sa sd : Option (List Nat)) (isDlv followMx : Bool) (trace : List Nat)
    (i : Nat) (hi : i ∉ trace) (h1 : ((st i).rrsigStatus).isSome = false)
    (h2 : (gs.node i).stub = false) :
    (((populateStatus env (fuel + 1) gs st sa sd isDlv followMx trace i).1) i).rrsigStatus =
      some () := by
  simp only [populateStatus]
  rw [if_neg hi, if_neg (by simp [h1]), if_neg (by simp [h2])]
  exact psBody_rrsig_set env _ _ gs st sa sd isDlv followMx trace i

/-- Claim C4, confirmed: a second invocation of `populate_status` with the
same arguments returns before mutating anything (on the `rrsig_status is
not None` guard, or the stub guard), so the state and the caller-supplied
sets — and hence any serialization of them — are exactly those after the
first invocation. -/
theorem c4_populate_status_idempotent (env : CryptoEnv) (f1 f2 : Nat) (gs : GraphStatic)
    (st : RState) (sa sd : Option (List Nat)) (isDlv followMx : Bool) (i : Nat) :
    populateStatus env (f2 + 1) gs
        (populateStatus env (f1 + 1) gs st sa sd isDlv followMx [] i).1
        (populateStatus env (f1 + 1) gs st sa sd isDlv followMx [] i).2.1
        (populateStatus env (f1 + 1) gs st sa sd isDlv followMx [] i).2.2
        isDlv followMx [] i =
      populateStatus env (f1 + 1) gs st sa sd isDlv followMx [] i := by
  have hnotin : i ∉ ([] : List Nat) := by simp
  by_cases h1 : ((st i).rrsigStatus).isSome
  · have hr : populateStatus env (f1 + 1) gs st sa sd isDlv followMx [] i = (st, sa, sd) := by
      simp only [populateStatus]
      rw [if_neg hnotin, if_pos h1]
    rw [hr]
    simp only [populateStatus]
    rw [if_neg hnotin, if_pos h1]
  · by_cases h2 : (gs.node i).stub
    · have hr : populateStatus env (f1 + 1) gs st sa sd isDlv followMx [] i = (st, sa, sd) := by
        simp only [populateStatus]
        rw [if_neg hnotin, if_neg h1, if_pos h2]
      rw [hr]
      simp only [populateStatus]
      rw [if_neg hnotin, if_neg h1, if_pos h2]
    · have hset := populateStatus_body_rrsig_set env f1 gs st sa sd isDlv followMx [] i hnotin
        (by simpa using h1) (by simpa using h2)
      generalize hr : populateStatus env (f1 + 1) gs st sa sd isDlv followMx [] i = r at hset ⊢
      obtain ⟨st', sa', sd'⟩ := r
      simp only [populateStatus]
      rw [if_neg hnotin, if_pos (by simp_all)]

/-- Intersecting with the crypto-supported set is idempotent. -/
lemma algInter_idem (s c : List Nat) : algInter (algInter s c) c = algInter s c := by
  unfold algInter
  rw [List.filter_filter]
  congr 1
  funext x
  rw [Bool.and_self]

/-- Intersecting a set with itself is the identity. -/
lemma algInter_self (c : List Nat) : algInter c c = c :=
  List.filter_eq_self.mpr (fun x hx => by simpa using hx)

/-- The ancestry recursion hands back the supported sets it was given,
provided the recursive calls leave already-intersected sets unchanged. -/
lemma psAncestry_algs (env : CryptoEnv)
    (rec : RState → Option (List Nat) → Option (List Nat) → Bool → Bool → List Nat → Nat →
      RState × Option (List Nat) × Option (List Nat))
    (gs : GraphStatic) (trace : List Nat) (i : Nat) (st4 : RState) (x y : List Nat)
    (hx : algInter x env.algs = x) (hy : algInter y env.digestAlgs = y)
    (hrec : ∀ (st' : RState) (s d : List Nat) (b fm : Bool) (tr : List Nat) (c : Nat),
      algInter s env.algs = s → algInter d env.digestAlgs = d →
      (rec st' (some s) (some d) b fm tr c).2 = (some s, some d)) :
    (psAncestry rec gs trace i st4 (some x) (some y)).2 = (some x, some y) := by
  unfold psAncestry
  cases hp : (gs.node i).parent with
  | none =>
      cases hq : (gs.node i).dlvParent with
      | none => rfl
      | some q => exact hrec _ _ _ _ _ _ _ hx hy
  | some p =>
      have h5 := hrec st4 x y false true (trace ++ [i]) p hx hy
      cases hq : (gs.node i).dlvParent with
      | none => exact h5
      | some q =>
          have h51 : (rec st4 (some x) (some y) false true (trace ++ [i]) p).2.1 = some x := by
            rw [h5]
          have h52 : (rec st4 (some x) (some y) false true (trace ++ [i]) p).2.2 = some y := by
            rw [h5]
          show (rec (rec st4 (some x) (some y) false true (trace ++ [i]) p).1
              ((rec st4 (some x) (some y) false true (trace ++ [i]) p).2.1)
              ((rec st4 (some x) (some y) false true (trace ++ [i]) p).2.2)
              true true (trace ++ [i]) q).2 = (some x, some y)
          rw [h51, h52]
          exact hrec _ _ _ _ _ _ _ hx hy

/-- The supported-set contents returned by the body of `populate_status`:
the input sets intersected with the crypto sets (or the crypto sets
themselves when the caller passed None), provided the recursive ancestor
calls leave already-intersected sets unchanged. -/
lemma psBody_algs (env : CryptoEnv)
    (rec : RState → Option (List Nat) → Option (List Nat) → Bool → Bool → List Nat → Nat →
      RState × Option (List Nat) × Option (List Nat))
    (recPns : RState → List Nat → Nat → RState) (gs : GraphStatic) (st : RState)
    (sa sd : Option (List Nat)) (isDlv followMx : Bool) (trace : List Nat) (i : Nat)
    (hrec : ∀ (st' : RState) (s d : List Nat) (b fm : Bool) (tr : List Nat) (c : Nat),
      algInter s env.algs = s → algInter d env.digestAlgs = d →
      (rec st' (some s) (some d) b fm tr c).2 = (some s, some d)) :
    (psBody env rec recPns gs st sa sd isDlv followMx trace i).2 = (mkSa env sa, mkSd env sd) := by
  obtain ⟨x, hxeq⟩ : ∃ x, mkSa env sa = some x := ⟨_, rfl⟩
  obtain ⟨y, hyeq⟩ : ∃ y, mkSd env sd = some y := ⟨_, rfl⟩
  have hx : algInter x env.algs = x := by
    cases sa with
    | none =>
        have hxv : x = env.algs := by simpa [mkSa] using hxeq.symm
        rw [hxv]
        exact algInter_self env.algs
    | some s =>
        have hxv : x = algInter s env.algs := by simpa [mkSa] using hxeq.symm
        rw [hxv]
        exact algInter_idem s env.algs
  have hy : algInter y env.digestAlgs = y := by
    cases sd with
    | none =>
        have hyv : y = env.digestAlgs := by simpa [mkSd] using hyeq.symm
        rw [hyv]
        exact algInter_self env.digestAlgs
    | some d =>
        have hyv : y = algInter d env.digestAlgs := by simpa [mkSd] using hyeq.symm
        rw [hyv]
        exact algInter_idem d env.digestAlgs
  have h := psAncestry_algs env rec gs trace i
    (psDepsAll (fun st fm tr c => rec st none none false fm tr c) gs trace i followMx st)
    x y hx hy hrec
  rw [← hxeq, ← hyeq] at h
  unfold psBody
  show ((psAncestry rec gs trace i
      (psDepsAll (fun st fm tr c => rec st none none false fm tr c) gs trace i followMx st)
      (mkSa env sa) (mkSd env sd)).2.1,
    (psAncestry rec gs trace i
      (psDepsAll (fun st fm tr c => rec st none none false fm tr c) gs trace i followMx st)
      (mkSa env sa) (mkSd env sd)).2.2) = (mkSa env sa, mkSd env sd)
  rw [h]

/-- Threading invariant: a caller-supplied set already equal to its
intersection with the crypto-supported set is returned unchanged by
`populate_status` (the re-intersection in recursive ancestor calls is a
no-op). -/
lemma populateStatus_algs_filtered (env : CryptoEnv) :
    ∀ (fuel : Nat) (gs : GraphStatic) (st : RState) (s d : List Nat) (isDlv followMx : Bool)
      (trace : List Nat) (i : Nat),
      algInter s env.algs = s → algInter d env.digestAlgs = d →
      (populateStatus env fuel gs st (some s) (some d) isDlv followMx trace i).2 =
        (some s, some d) := by
  intro fuel
  induction fuel with
  | zero => intros; rfl
  | succ fuel ih =>
      intro gs st s d isDlv followMx trace i hs hd
      simp only [populateStatus]
      by_cases hi : i ∈ trace
      · rw [if_pos hi]
      · rw [if_neg hi]
        by_cases h1 : ((st i).rrsigStatus).isSome
        · rw [if_pos h1]
        · rw [if_neg h1]
          by_cases h2 : (gs.node i).stub
          · rw [if_pos h2]
          · rw [if_neg h2]
            rw [psBody_algs env _ _ gs st (some s) (some d) isDlv followMx trace i
              (fun st' s' d' b fm tr c hs' hd' => ih gs st' s' d' b fm tr c hs' hd')]
            simp [mkSa, mkSd, hs, hd]

/-- Claim C9, counterexample: `populate_status` mutates the caller-supplied
`supported_algs` set in place (`intersection_update` with
`crypto._supported_algs`): supplying {1, 999} against a crypto set {1}
leaves the caller's set holding {1}, not its original contents. -/
theorem c9_counterexample :
    (populateStatus ⟨[1], [2]⟩ 2
        { n := 1,
          node := fun _ =>
            { name := "a", stub := false, referralRdtype := none, queries := [], cnames := [],
              mxTargets := [], externalSigners := [], nsDeps := [], parent := none,
              dlvParent := none } }
        initState (some [1, 999]) (some [2]) false true [] 0).2.1 = some [1] ∧
      some ([1] : List Nat) ≠ some ([1, 999] : List Nat) := by
  exact ⟨by decide, by decide⟩

/-- Claim C9, amended: `populate_status` is not pure in its caller-supplied
sets; when the node is evaluated (no revisit, not yet populated, not a
stub), the caller's `supported_algs` and `supported_digest_algs` sets are
intersected in place with the crypto-supported sets, so after the call they
hold exactly the intersection of their original contents with
`crypto._supported_algs` and `crypto._supported_digest_algs` respectively
(unchanged precisely when they were already subsets); on an early return
they are untouched. -/
theorem c9_supported_algs_mutation (env : CryptoEnv) (fuel : Nat) (gs : GraphStatic)
    (st : RState) (sa sd : List Nat) (isDlv followMx : Bool) (trace : List Nat) (i : Nat)
    (hi : i ∉ trace) (h1 : ((st i).rrsigStatus).isSome = false)
    (h2 : (gs.node i).stub = false) :
    (populateStatus env (fuel + 1) gs st (some sa) (some sd) isDlv followMx trace i).2 =
      (some (algInter sa env.algs), some (algInter sd env.digestAlgs)) := by
  simp only [populateStatus]
  rw [if_neg hi, if_neg (by simp [h1]), if_neg (by simp [h2])]
  exact psBody_algs env _ _ gs st (some sa) (some sd) isDlv followMx trace i
    (fun st' s' d' b fm tr c hs' hd' =>
      populateStatus_algs_filtered env fuel gs st' s' d' b fm tr c hs' hd')

/-- Witness for C9's amended theorem at a concrete input. -/
theorem c9_supported_algs_mutation_witness :
    (populateStatus ⟨[1], [2]⟩ 2
        { n := 1,
          node := fun _ =>
            { name := "a", stub := false, referralRdtype := none, queries := [], cnames := [],
              mxTargets := [], externalSigners := [], nsDeps := [], parent := none,
              dlvParent := none } }
        initState (some [1, 999]) (some [2]) false true [] 0).2 =
      (some (algInter [1, 999] [1]), some (algInter [2] [2])) :=
  c9_supported_algs_mutation ⟨[1], [2]⟩ 1 _ initState [1, 999] [2] false true [] 0
    (by simp) (by decide) (by decide)

/-! ## Claim C5: cycle safety of `populate_status`

The recursion of `populate_status` (and of `_populate_name_status`) carries
an explicit trace extended by value (`trace + [self]`); a revisited node
returns after `_populate_name_status` only.  Termination is expressed by
fuel adequacy: on a well-formed graph every fuel beyond a bound depending
only on the number of nodes yields the same result, i.e. the recursion
bottoms out before the fuel does. -/

/-- Well-formedness of the static graph: every dependency and ancestry
reference of a node points to a node of the graph (as Python object
references always do). -/
def GraphWF (gs : GraphStatic) : Prop :=
  ∀ i, i < gs.n →
    (∀ ct ∈ (gs.node i).cnames, ∀ c, ct.obj = some c → c < gs.n) ∧
    (∀ o ∈ (gs.node i).mxTargets, ∀ c, o = some c → c < gs.n) ∧
    (∀ o ∈ (gs.node i).externalSigners, ∀ c, o = some c → c < gs.n) ∧
    (∀ o ∈ (gs.node i).nsDeps, ∀ c, o = some c → c < gs.n) ∧
    (∀ p, (gs.node i).parent = some p → p < gs.n) ∧
    (∀ p, (gs.node i).dlvParent = some p → p < gs.n)

/-- The number of graph nodes not on the trace: the recursion measure. -/
def outsideCount (gs : GraphStatic) (trace : List Nat) : Nat :=
  ((List.range gs.n).filter (fun m => m ∉ trace)).length

lemma length_filter_le_of_imp {α : Type} (p q : α → Bool) (himp : ∀ x, q x = true → p x = true) :
    ∀ (l : List α), (l.filter q).length ≤ (l.filter p).length := by
  intro l
  induction l with
  | nil => exact Nat.le_refl _
  | cons y t ih =>
      simp only [List.filter_cons]
      cases hq : q y with
      | true =>
          rw [himp y hq]
          simpa using ih
      | false =>
          cases hp : p y with
          | true => simpa using Nat.le_succ_of_le ih
          | false => simpa using ih

lemma length_filter_lt_of_imp {α : Type} (p q : α → Bool) (himp : ∀ x, q x = true → p x = true)
    (x : α) (hpx : p x = true) (hqx : q x = false) :
    ∀ (l : List α), x ∈ l → (l.filter q).length < (l.filter p).length := by
  intro l
  induction l with
  | nil => intro hx; cases hx
  | cons y t ih =>
      intro hx
      simp only [List.filter_cons]
      rcases List.mem_cons.mp hx with rfl | hx'
      · rw [hpx, hqx]
        simpa using Nat.lt_succ_of_le (length_filter_le_of_imp p q himp t)
      · cases hq : q y with
        | true =>
            rw [himp y hq]
            simpa using ih hx'
        | false =>
            cases hp : p y with
            | true => simpa using Nat.lt_succ_of_le (Nat.le_of_lt (ih hx'))
            | false => simpa using ih hx'

/-- Extending the trace by an untraced graph node strictly shrinks the
measure. -/
lemma outsideCount_extend {gs : GraphStatic} {trace : List Nat} {i : Nat}
    (hn : i < gs.n) (hi : i ∉ trace) :
    outsideCount gs (trace ++ [i]) < outsideCount gs trace := by
  unfold outsideCount
  refine length_filter_lt_of_imp _ _ ?_ i ?_ ?_ _ (List.mem_range.mpr hn)
  · intro x hx
    simp only [decide_eq_true_eq] at hx ⊢
    intro hmem
    exact hx (List.mem_append_left _ hmem)
  · simpa using hi
  · simp

lemma outsideCount_nil (gs : GraphStatic) : outsideCount gs [] = gs.n := by
  simp [outsideCount]

/-- Congruence for the CNAME-propagation fold under a pointwise-equal
recursive call. -/
lemma foldl_cnameStep_congr (rec1 rec2 : RState → List Nat → Nat → RState)
    (trace : List Nat) (i : Nat) (P : Nat → Prop)
    (h : ∀ (st : RState) (m : Nat), P m → rec1 st (trace ++ [i]) m = rec2 st (trace ++ [i]) m) :
    ∀ (cts : List CnameTargetNS), (∀ ct ∈ cts, ∀ c, ct.obj = some c → P c) →
      ∀ (st : RState),
        cts.foldl (pnsCnameStep rec1 trace i) st = cts.foldl (pnsCnameStep rec2 trace i) st := by
  intro cts
  induction cts with
  | nil => intro _ st; rfl
  | cons ct rest ih =>
      intro hc st
      simp only [List.foldl_cons]
      have hstep : pnsCnameStep rec1 trace i st ct = pnsCnameStep rec2 trace i st ct := by
        rcases hobj : ct.obj with _ | m
        · simp only [pnsCnameStep, hobj]
        · simp only [pnsCnameStep, hobj]
          by_cases hm : m = i
          · rw [if_pos hm, if_pos hm]
          · rw [if_neg hm, if_neg hm]
            by_cases hnone : ((st m).yxrrset).isNone
            · rw [if_pos hnone, if_pos hnone,
                h st m (hc ct (List.mem_cons_self _ _) m hobj)]
            · rw [if_neg hnone, if_neg hnone]
      rw [hstep]
      exact ih (fun ct' hct' => hc ct' (List.mem_cons_of_mem _ hct')) _

/-- Single-step unfolding of `_populate_name_status` at a successor fuel. -/
lemma pns_succ (fuel : Nat) (gs : GraphStatic) (st : RState) (trace : List Nat) (i : Nat) :
    pns (fuel + 1) gs st trace i =
      (if i ∈ trace then st
      else
        pnsFinalize gs
          ((gs.node i).cnames.foldl
            (pnsCnameStep (fun st tr m => pns fuel gs st tr m) trace i)
            (Function.update st i
              { st i with
                status := some NameStatus.indeterminate
                yxdomain := some (nsAccOf gs i).yxd
                yxrrset := some (nsAccOf gs i).yxr
                nxrrset := some (nsAccOf gs i).nxr })) i) := rfl

/-- One step of fuel adequacy for `_populate_name_status`. -/
lemma pns_fuel_step (gs : GraphStatic) (hWF : GraphWF gs) :
    ∀ (fuel : Nat) (st : RState) (trace : List Nat) (i : Nat), i < gs.n →
      outsideCount gs trace < fuel →
      pns fuel gs st trace i = pns (fuel + 1) gs st trace i := by
  intro fuel
  induction fuel with
  | zero => intro st trace i _ hb; exact absurd hb (Nat.not_lt_zero _)
  | succ fuel ih =>
      intro st trace i hn hb
      rw [pns_succ fuel, pns_succ (fuel + 1)]
      by_cases hi : i ∈ trace
      · rw [if_pos hi, if_pos hi]
      · rw [if_neg hi, if_neg hi]
        exact congrArg (fun s => pnsFinalize gs s i)
          (foldl_cnameStep_congr (fun st tr m => pns fuel gs st tr m)
            (fun st tr m => pns (fuel + 1) gs st tr m) trace i (fun m => m < gs.n)
            (fun st' m hm => ih st' (trace ++ [i]) m hm
              (Nat.lt_of_lt_of_le (outsideCount_extend hn hi) (Nat.le_of_lt_succ hb)))
            (gs.node i).cnames ((hWF i hn).1) _)

/-- Fuel adequacy for `_populate_name_status`: any fuel above the measure
gives the same result. -/
lemma pns_fuel_mono (gs : GraphStatic) (hWF : GraphWF gs) :
    ∀ (d fuel : Nat) (st : RState) (trace : List Nat) (i : Nat), i < gs.n →
      outsideCount gs trace < fuel →
      pns fuel gs st trace i = pns (fuel + d) gs st trace i := by
  intro d
  induction d with
  | zero => intro fuel st trace i _ _; rfl
  | succ d ihd =>
      intro fuel st trace i hn hb
      rw [ihd fuel st trace i hn hb]
      rw [pns_fuel_step gs hWF (fuel + d) st trace i hn
        (Nat.lt_of_lt_of_le hb (Nat.le_add_right _ _))]
      rfl

/-- Congruence for a dependency-list recursion under a pointwise-equal
recursive call. -/
lemma psDeps_congr (rec1 rec2 : RState → Bool → List Nat → Nat →
      RState × Option (List Nat) × Option (List Nat))
    (trace : List Nat) (i : Nat) (fm : Bool) (P : Nat → Prop)
    (h : ∀ (st : RState) (fm' : Bool) (c : Nat), P c →
      rec1 st fm' (trace ++ [i]) c = rec2 st fm' (trace ++ [i]) c) :
    ∀ (objs : List (Option Nat)), (∀ o ∈ objs, ∀ c, o = some c → P c) →
      ∀ (st : RState), psDeps rec1 trace i fm st objs = psDeps rec2 trace i fm st objs := by
  intro objs
  induction objs with
  | nil => intro _ st; rfl
  | cons o rest ih =>
      intro ho st
      have hrest : ∀ o' ∈ rest, ∀ c, o' = some c → P c :=
        fun o' ho' => ho o' (List.mem_cons_of_mem _ ho')
      have hPhead : ∀ c, o = some c → P c :=
        fun c hoc => ho o (List.mem_cons_self _ _) c hoc
      clear ho
      cases o with
      | none =>
          show psDeps rec1 trace i fm st rest = psDeps rec2 trace i fm st rest
          exact ih hrest st
      | some c =>
          show psDeps rec1 trace i fm ((rec1 st fm (trace ++ [i]) c).1) rest =
            psDeps rec2 trace i fm ((rec2 st fm (trace ++ [i]) c).1) rest
          rw [h st fm c (hPhead c rfl)]
          exact ih hrest _

/-- Congruence for the combined dependency recursions under a
pointwise-equal recursive call. -/
lemma psDepsAll_congr (rec1a rec2a : RState → Bool → List Nat → Nat →
      RState × Option (List Nat) × Option (List Nat))
    (gs : GraphStatic) (trace : List Nat) (i : Nat) (followMx : Bool) (st : RState)
    (P : Nat → Prop)
    (h : ∀ (st' : RState) (fm' : Bool) (c : Nat), P c →
      rec1a st' fm' (trace ++ [i]) c = rec2a st' fm' (trace ++ [i]) c)
    (hcm : ∀ o ∈ (gs.node i).cnames.map (fun ct => ct.obj), ∀ c, o = some c → P c)
    (hmx : ∀ o ∈ (gs.node i).mxTargets, ∀ c, o = some c → P c)
    (hsig : ∀ o ∈ (gs.node i).externalSigners, ∀ c, o = some c → P c)
    (hns : ∀ o ∈ (gs.node i).nsDeps, ∀ c, o = some c → P c) :
    psDepsAll rec1a gs trace i followMx st = psDepsAll rec2a gs trace i followMx st := by
  by_cases hfm : followMx = true
  · simp only [psDepsAll]
    rw [if_pos hfm, if_pos hfm,
      psDeps_congr _ _ trace i true P h _ hcm,
      psDeps_congr _ _ trace i false P h _ hmx,
      psDeps_congr _ _ trace i true P h _ hsig,
      psDeps_congr _ _ trace i true P h _ hns]
  · simp only [psDepsAll]
    rw [if_neg hfm, if_neg hfm,
      psDeps_congr _ _ trace i true P h _ hcm,
      psDeps_congr _ _ trace i true P h _ hsig,
      psDeps_congr _ _ trace i true P h _ hns]

/-- Congruence for the ancestry recursions under a pointwise-equal
recursive call. -/
lemma psAncestry_congr
    (rec1 rec2 : RState → Option (List Nat) → Option (List Nat) → Bool → Bool → List Nat →
      Nat → RState × Option (List Nat) × Option (List Nat))
    (gs : GraphStatic) (trace : List Nat) (i : Nat) (st4 : RState)
    (sa1 sd1 : Option (List Nat)) (P : Nat → Prop)
    (hrec : ∀ (st' : RState) (sa' sd' : Option (List Nat)) (b fm' : Bool) (c : Nat), P c →
      rec1 st' sa' sd' b fm' (trace ++ [i]) c = rec2 st' sa' sd' b fm' (trace ++ [i]) c)
    (hpar : ∀ p, (gs.node i).parent = some p → P p)
    (hdlv : ∀ p, (gs.node i).dlvParent = some p → P p) :
    psAncestry rec1 gs trace i st4 sa1 sd1 = psAncestry rec2 gs trace i st4 sa1 sd1 := by
  unfold psAncestry
  rcases hp : (gs.node i).parent with _ | p
  · rcases hq : (gs.node i).dlvParent with _ | q
    · rfl
    · exact hrec st4 sa1 sd1 true true q (hdlv q hq)
  · rcases hq : (gs.node i).dlvParent with _ | q
    · exact hrec st4 sa1 sd1 false true p (hpar p hp)
    · show rec1 (rec1 st4 sa1 sd1 false true (trace ++ [i]) p).1
          ((rec1 st4 sa1 sd1 false true (trace ++ [i]) p).2.1)
          ((rec1 st4 sa1 sd1 false true (trace ++ [i]) p).2.2) true true (trace ++ [i]) q =
        rec2 (rec2 st4 sa1 sd1 false true (trace ++ [i]) p).1
          ((rec2 st4 sa1 sd1 false true (trace ++ [i]) p).2.1)
          ((rec2 st4 sa1 sd1 false true (trace ++ [i]) p).2.2) true true (trace ++ [i]) q
      rw [hrec st4 sa1 sd1 false true p (hpar p hp)]
      exact hrec _ _ _ true true q (hdlv q hq)

/-- Congruence for the body of `populate_status` under pointwise-equal
recursive calls. -/
lemma psBody_congr (env : CryptoEnv)
    (rec1 rec2 : RState → Option (List Nat) → Option (List Nat) → Bool → Bool → List Nat →
      Nat → RState × Option (List Nat) × Option (List Nat))
    (recPns1 recPns2 : RState → List Nat → Nat → RState)
    (gs : GraphStatic) (st : RState) (sa sd : Option (List Nat)) (isDlv followMx : Bool)
    (trace : List Nat) (i : Nat) (P : Nat → Prop)
    (hrec : ∀ (st' : RState) (sa' sd' : Option (List Nat)) (b fm' : Bool) (c : Nat), P c →
      rec1 st' sa' sd' b fm' (trace ++ [i]) c = rec2 st' sa' sd' b fm' (trace ++ [i]) c)
    (hpns : ∀ (st' : RState), recPns1 st' [] i = recPns2 st' [] i)
    (hc : ∀ ct ∈ (gs.node i).cnames, ∀ c, ct.obj = some c → P c)
    (hmx : ∀ o ∈ (gs.node i).mxTargets, ∀ c, o = some c → P c)
    (hsig : ∀ o ∈ (gs.node i).externalSigners, ∀ c, o = some c → P c)
    (hns : ∀ o ∈ (gs.node i).nsDeps, ∀ c, o = some c → P c)
    (hpar : ∀ p, (gs.node i).parent = some p → P p)
    (hdlv : ∀ p, (gs.node i).dlvParent = some p → P p) :
    psBody env rec1 recPns1 gs st sa sd isDlv followMx trace i =
      psBody env rec2 recPns2 gs st sa sd isDlv followMx trace i := by
  have hrec1 : ∀ (st' : RState) (fm' : Bool) (c : Nat), P c →
      (fun st fm tr c => rec1 st none none false fm tr c) st' fm' (trace ++ [i]) c =
        (fun st fm tr c => rec2 st none none false fm tr c) st' fm' (trace ++ [i]) c :=
    fun st' fm' c hPc => hrec st' none none false fm' c hPc
  have hcm : ∀ o ∈ (gs.node i).cnames.map (fun ct => ct.obj), ∀ c, o = some c → P c := by
    intro o ho c hoc
    rcases List.mem_map.mp ho with ⟨ct, hct, rfl⟩
    exact hc ct hct c hoc
  unfold psBody
  rw [psDepsAll_congr (fun st fm tr c => rec1 st none none false fm tr c)
    (fun st fm tr c => rec2 st none none false fm tr c) gs trace i followMx st P hrec1
    hcm hmx hsig hns]
  rw [psAncestry_congr rec1 rec2 gs trace i _ (mkSa env sa) (mkSd env sd) P hrec hpar hdlv]
  simp only [hpns]

/-- Single-step unfolding of `populate_status` at a successor fuel. -/
lemma populateStatus_succ (env : CryptoEnv) (fuel : Nat) (gs : GraphStatic) (st : RState)
    (sa sd : Option (List Nat)) (isDlv followMx : Bool) (trace : List Nat) (i : Nat) :
    populateStatus env (fuel + 1) gs st sa sd isDlv followMx trace i =
      (if i ∈ trace then (pns fuel gs st [] i, sa, sd)
      else if ((st i).rrsigStatus).isSome then (st, sa, sd)
      else if (gs.node i).stub then (st, sa, sd)
      else psBody env
        (fun st sa sd b fm tr c => populateStatus env fuel gs st sa sd b fm tr c)
        (fun st tr m => pns fuel gs st tr m) gs st sa sd isDlv followMx trace i) := rfl

/-- One step of fuel adequacy for `populate_status`. -/
lemma populateStatus_fuel_step (env : CryptoEnv) (gs : GraphStatic) (hWF : GraphWF gs) :
    ∀ (fuel : Nat) (st : RState) (sa sd : Option (List Nat)) (isDlv followMx : Bool)
      (trace : List Nat) (i : Nat), i < gs.n →
      gs.n + 1 + outsideCount gs trace < fuel →
      populateStatus env fuel gs st sa sd isDlv followMx trace i =
        populateStatus env (fuel + 1) gs st sa sd isDlv followMx trace i := by
  intro fuel
  induction fuel with
  | zero =>
      intro st sa sd isDlv followMx trace i _ hb
      exact absurd hb (Nat.not_lt_zero _)
  | succ fuel ih =>
      intro st sa sd isDlv followMx trace i hn hb
      have hgn : gs.n < fuel := by omega
      rw [populateStatus_succ env fuel, populateStatus_succ env (fuel + 1)]
      by_cases hi : i ∈ trace
      · rw [if_pos hi, if_pos hi,
          pns_fuel_step gs hWF fuel st [] i hn (by rw [outsideCount_nil]; exact hgn)]
      · rw [if_neg hi, if_neg hi]
        by_cases h1 : ((st i).rrsigStatus).isSome
        · rw [if_pos h1, if_pos h1]
        · rw [if_neg h1, if_neg h1]
          by_cases h2 : (gs.node i).stub
          · rw [if_pos h2, if_pos h2]
          · rw [if_neg h2, if_neg h2]
            have hout := outsideCount_extend hn hi
            refine psBody_congr env _ _ _ _ gs st sa sd isDlv followMx trace i
              (fun m => m < gs.n) ?_ ?_ ?_ ?_ ?_ ?_ ?_ ?_
            · intro st' sa' sd' b fm' c hc
              exact ih st' sa' sd' b fm' (trace ++ [i]) c hc (by omega)
            · intro st'
              exact pns_fuel_step gs hWF fuel st' [] i hn (by rw [outsideCount_nil]; exact hgn)
            · exact (hWF i hn).1
            · exact (hWF i hn).2.1
            · exact (hWF i hn).2.2.1
            · exact (hWF i hn).2.2.2.1
            · exact (hWF i hn).2.2.2.2.1
            · exact (hWF i hn).2.2.2.2.2

/-- Fuel adequacy for `populate_status`: any fuel above the measure gives
the same result. -/
lemma populateStatus_fuel_mono (env : CryptoEnv) (gs : GraphStatic) (hWF : GraphWF gs) :
    ∀ (d fuel : Nat) (st : RState) (sa sd : Option (List Nat)) (isDlv followMx : Bool)
      (trace : List Nat) (i : Nat), i < gs.n →
      gs.n + 1 + outsideCount gs trace < fuel →
      populateStatus env fuel gs st sa sd isDlv followMx trace i =
        populateStatus env (fuel + d) gs st sa sd isDlv followMx trace i := by
  intro d
  induction d with
  | zero => intro fuel st sa sd isDlv followMx trace i _ _; rfl
  | succ d ihd =>
      intro fuel st sa sd isDlv followMx trace i hn hb
      rw [ihd fuel st sa sd isDlv followMx trace i hn hb]
      rw [populateStatus_fuel_step env gs hWF (fuel + d) st sa sd isDlv followMx trace i hn
        (by omega)]
      rfl

/-- Two sufficient fuels agree on a top-level (`trace = []`) invocation of
`populate_status`. -/
lemma populateStatus_fuel_agree (env : CryptoEnv) (gs : GraphStatic) (hWF : GraphWF gs)
    (f1 f2 : Nat) (st : RState) (sa sd : Option (List Nat)) (isDlv followMx : Bool) (i : Nat)
    (hn : i < gs.n) (h1 : 2 * gs.n + 1 < f1) (h2 : 2 * gs.n + 1 < f2) :
    populateStatus env f1 gs st sa sd isDlv followMx [] i =
      populateStatus env f2 gs st sa sd isDlv followMx [] i := by
  have hB : gs.n + 1 + outsideCount gs [] < 2 * gs.n + 2 := by
    rw [outsideCount_nil]; omega
  have e1 := populateStatus_fuel_mono env gs hWF (f1 - (2 * gs.n + 2)) (2 * gs.n + 2)
    st sa sd isDlv followMx [] i hn hB
  have e2 := populateStatus_fuel_mono env gs hWF (f2 - (2 * gs.n + 2)) (2 * gs.n + 2)
    st sa sd isDlv followMx [] i hn hB
  rw [show 2 * gs.n + 2 + (f1 - (2 * gs.n + 2)) = f1 by omega] at e1
  rw [show 2 * gs.n + 2 + (f2 - (2 * gs.n + 2)) = f2 by omega] at e2
  rw [← e1, ← e2]

/-- Executable well-formedness check for a static graph. -/
def graphWFb (gs : GraphStatic) : Bool :=
  (List.range gs.n).all (fun i =>
    ((gs.node i).cnames.all (fun ct =>
        match ct.obj with | some c => decide (c < gs.n) | none => true)) &&
    ((gs.node i).mxTargets.all (fun o =>
        match o with | some c => decide (c < gs.n) | none => true)) &&
    ((gs.node i).externalSigners.all (fun o =>
        match o with | some c => decide (c < gs.n) | none => true)) &&
    ((gs.node i).nsDeps.all (fun o =>
        match o with | some c => decide (c < gs.n) | none => true)) &&
    (match (gs.node i).parent with | some p => decide (p < gs.n) | none => true) &&
    (match (gs.node i).dlvParent with | some p => decide (p < gs.n) | none => true))

/-- The executable check implies well-formedness. -/
lemma graphWF_of_b (gs : GraphStatic) (h : graphWFb gs = true) : GraphWF gs := by
  intro i hi
  unfold graphWFb at h
  have hall := List.all_eq_true.mp h i (List.mem_range.mpr hi)
  simp only [Bool.and_eq_true] at hall
  obtain ⟨⟨⟨⟨⟨hc, hm⟩, hs⟩, hn⟩, hp⟩, hd⟩ := hall
  refine ⟨?_, ?_, ?_, ?_, ?_, ?_⟩
  · intro ct hct c hc'
    have hct' := List.all_eq_true.mp hc ct hct
    rw [hc'] at hct'
    exact of_decide_eq_true hct'
  · intro o ho c hc'
    have ho' := List.all_eq_true.mp hm o ho
    rw [hc'] at ho'
    exact of_decide_eq_true ho'
  · intro o ho c hc'
    have ho' := List.all_eq_true.mp hs o ho
    rw [hc'] at ho'
    exact of_decide_eq_true ho'
  · intro o ho c hc'
    have ho' := List.all_eq_true.mp hn o ho
    rw [hc'] at ho'
    exact of_decide_eq_true ho'
  · intro p hp'
    rw [hp'] at hp
    exact of_decide_eq_true hp
  · intro p hp'
    rw [hp'] at hd
    exact of_decide_eq_true hd

/-- A two-node CNAME cycle: node 0's answer CNAMEs to node 1's name and
vice versa. -/
def c5ExNode0 : NodeStatic :=
  { name := "a", stub := false, referralRdtype := none, queries := [],
    cnames := [{ cname := "a", target := "b", obj := some 1 }],
    mxTargets := [], externalSigners := [], nsDeps := [], parent := none, dlvParent := none }

def c5ExNode1 : NodeStatic :=
  { name := "b", stub := false, referralRdtype := none, queries := [],
    cnames := [{ cname := "b", target := "a", obj := some 0 }],
    mxTargets := [], externalSigners := [], nsDeps := [], parent := none, dlvParent := none }

def c5ExGs : GraphStatic :=
  { n := 2, node := fun i => if i = 0 then c5ExNode0 else c5ExNode1 }

/-- Claim C5, confirmed: on a well-formed analysis graph — cyclic
dependency structures (CNAME, MX, NS-dependency, external-signer cycles)
included — (a) a revisited node (already on the trace) runs only
`_populate_name_status` (with a fresh trace) and returns, leaving the
caller's supported sets untouched; (b) `_populate_name_status` changes no
evaluator field outside the four name-status fields, so no RRSIG,
negative-response, or delegation evaluation is re-entered on the revisit;
(c) `populate_status` terminates: every sufficiently large fuel yields the
same result, i.e. the trace-based cycle detection bottoms the recursion out
before any fuel beyond `2n+2` does. -/
theorem c5_cycle_safety (env : CryptoEnv) (gs : GraphStatic) (hWF : GraphWF gs) :
    (∀ (fuel : Nat) (st : RState) (sa sd : Option (List Nat)) (isDlv followMx : Bool)
        (trace : List Nat) (i : Nat), i ∈ trace →
        populateStatus env (fuel + 1) gs st sa sd isDlv followMx trace i =
          (pns fuel gs st [] i, sa, sd)) ∧
    (∀ (fuel : Nat) (st : RState) (trace : List Nat) (i j : Nat),
        ((pns fuel gs st trace i) j).evalMarks = (st j).evalMarks) ∧
    (∀ (f1 f2 : Nat) (st : RState) (sa sd : Option (List Nat)) (isDlv followMx : Bool)
        (i : Nat), i < gs.n → 2 * gs.n + 1 < f1 → 2 * gs.n + 1 < f2 →
        populateStatus env f1 gs st sa sd isDlv followMx [] i =
          populateStatus env f2 gs st sa sd isDlv followMx [] i) := by
  refine ⟨?_, ?_, ?_⟩
  · intro fuel st sa sd isDlv followMx trace i hi
    rw [populateStatus_succ, if_pos hi]
  · intro fuel st trace i j
    exact pns_marks gs fuel st trace i j
  · intro f1 f2 st sa sd isDlv followMx i hn h1 h2
    exact populateStatus_fuel_agree env gs hWF f1 f2 st sa sd isDlv followMx i hn h1 h2

/-- Witness for C5 on the concrete two-node CNAME cycle. -/
theorem c5_cycle_safety_witness :
    GraphWF c5ExGs ∧
      populateStatus ⟨[1], [2]⟩ (1 + 1) c5ExGs initState none none false true [0] 0 =
        (pns 1 c5ExGs initState [] 0, none, none) := by
  have hwf : GraphWF c5ExGs := graphWF_of_b c5ExGs (by decide)
  exact ⟨hwf,
    (c5_cycle_safety ⟨[1], [2]⟩ c5ExGs hwf).1 1 initState none none false true [0] 0
      (by decide)⟩

/-! ## Claim C10: distribution of `response_component_status`

`populate_response_component_status(G)` (offline.py 1725-1791) builds a
single dict keyed by graph components and then distributes the very same
dict object over the node's dependency/ancestry closure with
`_set_response_component_status` (offline.py 1792-1822).  The graph `G`
and its components are produced by the external `dnsviz.viz` / `Response`
modules, so they enter the model as input data. -/

/-- The kinds of graph components handled by the build loop of
`populate_response_component_status` (the `isinstance` dispatch). -/
inductive CompKind
  | dnskeyMeta | rrsetInfo | nsecSet | negRespInfo
  deriving DecidableEq, Repr

/-- One component indexed by the DNSSEC authentication graph `G` (an entry
of `G.node_reverse_mapping` of one of the four handled classes), together
with the graph-derived data the build loop reads: `status` is
`G.status_for_node(node_str)`; for a DNSKEYMeta, `dnskeyRrsets` pairs each
`rrset_info` entry with the `rrset_info in G.secure_dnskey_rrsets` test;
for an NSECSet, `nsecRrsets` pairs each per-name RRset with
`G.status_for_node(node_str, nsec_name_str)`; for a NegativeResponseInfo,
`negRdtype` is its rdtype, `isInvis` is `G.is_invis(node_str)`,
`secureNsecCovering` is `G.secure_nsec_nodes_covering_node(node_str)`,
`optOutSecure` is `bool(G.secure_nsec3_optout_nodes_covering_node(node_str))`,
and `soaRrsets` pairs each `soa_rrset_info` entry with
`G.status_for_node(G.node_reverse_mapping[soa_rrset])`. -/
structure Component where
  cid : Nat
  kind : CompKind
  status : RStatus
  dnskeyRrsets : List (Nat × Bool)
  nsecRrsets : List (Nat × RStatus)
  negRdtype : RdType
  isInvis : Bool
  secureNsecCovering : Bool
  optOutSecure : Bool
  soaRrsets : List (Nat × RStatus)
  deriving DecidableEq, Repr

/-- Python dict assignment `m[k] = v`: replace in place, else append. -/
def rcsSet : RcsMap → Nat → RStatus → RcsMap
  | [], k, v => [(k, v)]
  | (k1, v1) :: t, k, v => if k1 = k then (k, v) :: t else (k1, v1) :: rcsSet t k v

/-- Python dict lookup `m[k]` (None for a missing key). -/
def rcsGet : RcsMap → Nat → Option RStatus
  | [], _ => none
  | (k1, v1) :: t, k => if k1 = k then some v1 else rcsGet t k

/-- The per-component tail of one iteration of the build loop of
`populate_response_component_status`, after `response_component_status[obj]
= status` has run (offline.py 1733-1790): the DNSKEYMeta `rrset_info`
loop, the NSECSet per-name loop, and the NegativeResponseInfo special
cases (invisible-node DS promotion, invisible-node DNSKEY bogus marking
with SOA propagation reading the current entry of the dict, and the
non-DNSKEY SOA-secure check, which tests the original `status` variable,
not the possibly promoted dict entry).  The `getD` default on the dict
read is unreachable: the component's own key was assigned first and
`rcsSet` never removes a key. -/
def negInvisStep (c : Component) (m0 : RcsMap) : RcsMap :=
  if c.isInvis then
    if c.negRdtype = RdType.ds then
      if c.status = RStatus.insecure then
        if c.secureNsecCovering then rcsSet m0 c.cid RStatus.secure else m0
      else m0
    else if c.negRdtype = RdType.dnskey then
      c.soaRrsets.foldl
        (fun m rs => rcsSet m rs.1 ((rcsGet m c.cid).getD c.status))
        (if c.status = RStatus.secure then rcsSet m0 c.cid RStatus.bogus else m0)
    else m0
  else m0

def negSoaCheckStep (c : Component) (m1 : RcsMap) : RcsMap :=
  if c.negRdtype = RdType.dnskey then m1
  else
    if c.status = RStatus.secure ∨
        (c.status = RStatus.insecure ∧ c.optOutSecure = true) then
      if c.soaRrsets.any (fun rs => decide (rs.2 = RStatus.secure)) then m1
      else rcsSet m1 c.cid RStatus.bogus
    else m1

def buildStepPost (c : Component) (m0 : RcsMap) : RcsMap :=
  match c.kind with
  | CompKind.dnskeyMeta =>
      c.dnskeyRrsets.foldl
        (fun m rs => rcsSet m rs.1 (if rs.2 then RStatus.secure else c.status)) m0
  | CompKind.rrsetInfo => m0
  | CompKind.nsecSet =>
      c.nsecRrsets.foldl (fun m rs => rcsSet m rs.1 rs.2) m0
  | CompKind.negRespInfo => negSoaCheckStep c (negInvisStep c m0)

/-- One iteration of the build loop: `response_component_status[obj] =
status`, then the per-kind processing. -/
def buildStep (m : RcsMap) (c : Component) : RcsMap :=
  buildStepPost c (rcsSet m c.cid c.status)

/-- The dict built by `populate_response_component_status` before
distribution (offline.py 1726-1790). -/
def buildRcsMap (comps : List Component) : RcsMap :=
  comps.foldl buildStep []

/-- One dependency loop of `_set_response_component_status`: visit each
analysed (non-`None`) dependency. -/
def rcsDeps (rec : RState → Nat → RState) : RState → List (Option Nat) → RState
  | st, [] => st
  | st, none :: t => rcsDeps rec st t
  | st, some c :: t => rcsDeps rec (rec st c) t

/-- The dependency recursions of `_set_response_component_status`
(offline.py 1800-1813): CNAME targets, MX targets (only when `follow_mx`,
and called with `follow_mx=False`), external signers, NS dependencies. -/
def setRCSDeps (rec : Bool → Bool → RState → Nat → RState) (gs : GraphStatic)
    (followMx : Bool) (i : Nat) (st : RState) : RState :=
  let st1 := rcsDeps (rec false true) st ((gs.node i).cnames.map (fun ct => ct.obj))
  let st2 := if followMx then rcsDeps (rec false false) st1 (gs.node i).mxTargets else st1
  let st3 := rcsDeps (rec false true) st2 (gs.node i).externalSigners
  rcsDeps (rec false true) st3 (gs.node i).nsDeps

/-- The ancestry recursions of `_set_response_component_status`
(offline.py 1815-1819): parent and DLV parent (the latter with
`is_dlv=True`). -/
def setRCSAnc (rec : Bool → Bool → RState → Nat → RState) (gs : GraphStatic)
    (i : Nat) (st4 : RState) : RState :=
  let st5 := match (gs.node i).parent with
    | some p => rec false true st4 p
    | none => st4
  match (gs.node i).dlvParent with
  | some p => rec true true st5 p
  | none => st5

/-- `_set_response_component_status` (offline.py 1792-1822), fuel-indexed:
return on a revisit (node on the trace); otherwise recurse into
dependencies and ancestry with the extended trace, then assign the one
mapping object to the node's `response_component_status` field. -/
def setRCS (M : RcsMap) : Nat → GraphStatic → RState → Bool → Bool → List Nat → Nat → RState
  | 0, _, st, _, _, _, _ => st
  | fuel + 1, gs, st, _, followMx, trace, i =>
    if i ∈ trace then st
    else
      let st6 := setRCSAnc (fun b2 fm2 st c => setRCS M fuel gs st b2 fm2 (trace ++ [i]) c)
        gs i
        (setRCSDeps (fun b2 fm2 st c => setRCS M fuel gs st b2 fm2 (trace ++ [i]) c)
          gs followMx i st)
      Function.update st6 i { st6 i with rcs := some M }
termination_by structural fuel => fuel

/-- `populate_response_component_status` (offline.py 1725-1791): build the
single mapping from the graph and distribute it from the node.  The fuel
`gs.n + 1` is adequate: the trace grows by one fresh node per level. -/
def populateRCS (comps : List Component) (gs : GraphStatic) (st : RState) (i : Nat) : RState :=
  setRCS (buildRcsMap comps) (gs.n + 1) gs st false true [] i

/-- Single-step unfolding of `_set_response_component_status` at a
successor fuel. -/
lemma setRCS_succ (M : RcsMap) (fuel : Nat) (gs : GraphStatic) (st : RState) (b fm : Bool)
    (trace : List Nat) (i : Nat) :
    setRCS M (fuel + 1) gs st b fm trace i =
      (if i ∈ trace then st
      else
        Function.update
          (setRCSAnc (fun b2 fm2 st c => setRCS M fuel gs st b2 fm2 (trace ++ [i]) c) gs i
            (setRCSDeps (fun b2 fm2 st c => setRCS M fuel gs st b2 fm2 (trace ++ [i]) c)
              gs fm i st))
          i
          { (setRCSAnc (fun b2 fm2 st c => setRCS M fuel gs st b2 fm2 (trace ++ [i]) c) gs i
              (setRCSDeps (fun b2 fm2 st c => setRCS M fuel gs st b2 fm2 (trace ++ [i]) c)
                gs fm i st)) i
            with rcs := some M }) := rfl

/-- A single distribution step either leaves a node's entry alone or sets
its `response_component_status` field to the one mapping object. -/
def RcsStep (M : RcsMap) (j : Nat) (st st' : RState) : Prop :=
  st' j = st j ∨ st' j = { st j with rcs := some M }

lemma rcsUpd_idem (x : NRes) (M : RcsMap) :
    ({ { x with rcs := some M } with rcs := some M } : NRes) = { x with rcs := some M } := rfl

lemma rcsStep_refl (M : RcsMap) (j : Nat) (st : RState) : RcsStep M j st st := Or.inl rfl

lemma rcsStep_trans {M : RcsMap} {j : Nat} {st st' st'' : RState}
    (h1 : RcsStep M j st st') (h2 : RcsStep M j st' st'') : RcsStep M j st st'' := by
  rcases h1 with h1 | h1 <;> rcases h2 with h2 | h2
  · exact Or.inl (h2.trans h1)
  · exact Or.inr (by rw [h2, h1])
  · exact Or.inr (h2.trans h1)
  · exact Or.inr (by rw [h2, h1, rcsUpd_idem])

lemma rcsDeps_frame (M : RcsMap) (rec : RState → Nat → RState) (j : Nat)
    (hrec : ∀ (st : RState) (c : Nat), RcsStep M j st (rec st c)) :
    ∀ (objs : List (Option Nat)) (st : RState), RcsStep M j st (rcsDeps rec st objs) := by
  intro objs
  induction objs with
  | nil => intro st; exact rcsStep_refl M j st
  | cons o t ih =>
      intro st
      cases o with
      | none => exact ih st
      | some c => exact rcsStep_trans (hrec st c) (ih (rec st c))

lemma setRCSDeps_frame (M : RcsMap) (rec : Bool → Bool → RState → Nat → RState)
    (gs : GraphStatic) (fm : Bool) (i j : Nat)
    (hrec : ∀ (b fm2 : Bool) (st : RState) (c : Nat), RcsStep M j st (rec b fm2 st c)) :
    ∀ (st : RState), RcsStep M j st (setRCSDeps rec gs fm i st) := by
  intro st
  simp only [setRCSDeps]
  refine rcsStep_trans ?_ (rcsDeps_frame M _ j (fun st' c => hrec false true st' c) _ _)
  refine rcsStep_trans ?_ (rcsDeps_frame M _ j (fun st' c => hrec false true st' c) _ _)
  by_cases hfm : fm = true
  · rw [if_pos hfm]
    exact rcsStep_trans (rcsDeps_frame M _ j (fun st' c => hrec false true st' c) _ _)
      (rcsDeps_frame M _ j (fun st' c => hrec false false st' c) _ _)
  · rw [if_neg hfm]
    exact rcsDeps_frame M _ j (fun st' c => hrec false true st' c) _ _

lemma setRCSAnc_frame (M : RcsMap) (rec : Bool → Bool → RState → Nat → RState)
    (gs : GraphStatic) (i j : Nat)
    (hrec : ∀ (b fm2 : Bool) (st : RState) (c : Nat), RcsStep M j st (rec b fm2 st c)) :
    ∀ (st : RState), RcsStep M j st (setRCSAnc rec gs i st) := by
  intro st
  unfold setRCSAnc
  rcases hp : (gs.node i).parent with _ | p <;> rcases hq : (gs.node i).dlvParent with _ | q
  · exact rcsStep_refl M j st
  · exact hrec true true st q
  · exact hrec false true st p
  · exact rcsStep_trans (hrec false true st p) (hrec true true _ q)

/-- Frame property of the distribution: every node's entry is either
untouched or assigned the one mapping object (all other fields
unchanged). -/
lemma setRCS_frame (M : RcsMap) (gs : GraphStatic) :
    ∀ (fuel : Nat) (st : RState) (b fm : Bool) (tr : List Nat) (i j : Nat),
      RcsStep M j st (setRCS M fuel gs st b fm tr i) := by
  intro fuel
  induction fuel with
  | zero => intro st b fm tr i j; exact rcsStep_refl M j st
  | succ fuel ih =>
      intro st b fm tr i j
      rw [setRCS_succ]
      by_cases hi : i ∈ tr
      · rw [if_pos hi]; exact rcsStep_refl M j st
      · rw [if_neg hi]
        have hrec : ∀ (b2 fm2 : Bool) (st' : RState) (c : Nat),
            RcsStep M j st' (setRCS M fuel gs st' b2 fm2 (tr ++ [i]) c) :=
          fun b2 fm2 st' c => ih st' b2 fm2 (tr ++ [i]) c j
        refine rcsStep_trans
          (rcsStep_trans (setRCSDeps_frame M _ gs fm i j hrec st)
            (setRCSAnc_frame M _ gs i j hrec _)) ?_
        by_cases hj : j = i
        · subst hj
          exact Or.inr (Function.update_same _ _ _)
        · exact Or.inl (Function.update_noteq hj _ _)

/-- An already-assigned `response_component_status` entry survives any
further distribution (it can only be re-assigned the same object). -/
lemma setRCS_preserves (M : RcsMap) (gs : GraphStatic) (fuel : Nat) (st : RState)
    (b fm : Bool) (tr : List Nat) (i j : Nat) (hj : ((st j)).rcs = some M) :
    ((setRCS M fuel gs st b fm tr i) j).rcs = some M := by
  rcases setRCS_frame M gs fuel st b fm tr i j with h | h
  · rw [h]; exact hj
  · rw [h]

/-- A non-revisit invocation assigns the node's own entry. -/
lemma setRCS_self (M : RcsMap) (gs : GraphStatic) (fuel : Nat) (st : RState) (b fm : Bool)
    (tr : List Nat) (i : Nat) (hi : i ∉ tr) :
    ((setRCS M (fuel + 1) gs st b fm tr i) i).rcs = some M := by
  rw [setRCS_succ, if_neg hi, Function.update_same]

lemma rcsDeps_preserves (M : RcsMap) (rec : RState → Nat → RState) (j : Nat)
    (hpres : ∀ (st : RState) (c : Nat), (st j).rcs = some M → ((rec st c) j).rcs = some M) :
    ∀ (objs : List (Option Nat)) (st : RState), (st j).rcs = some M →
      ((rcsDeps rec st objs) j).rcs = some M := by
  intro objs
  induction objs with
  | nil => intro st hj; exact hj
  | cons o t ih =>
      intro st hj
      cases o with
      | none => exact ih st hj
      | some c => exact ih (rec st c) (hpres st c hj)

lemma rcsDeps_establish (M : RcsMap) (rec : RState → Nat → RState) (j c : Nat)
    (hpres : ∀ (st : RState) (c' : Nat), (st j).rcs = some M → ((rec st c') j).rcs = some M)
    (hest : ∀ (st : RState), ((rec st c) j).rcs = some M) :
    ∀ (objs : List (Option Nat)), some c ∈ objs → ∀ (st : RState),
      ((rcsDeps rec st objs) j).rcs = some M := by
  intro objs
  induction objs with
  | nil => intro h; cases h
  | cons o t ih =>
      intro ho st
      rcases List.mem_cons.mp ho with heq | ho'
      · cases heq
        exact rcsDeps_preserves M rec j hpres t (rec st c) (hest st)
      · cases o with
        | none => exact ih ho' st
        | some c' => exact ih ho' (rec st c')

lemma setRCSDeps_preserves (M : RcsMap) (rec : Bool → Bool → RState → Nat → RState)
    (gs : GraphStatic) (fm : Bool) (i j : Nat)
    (hpres : ∀ (b fm2 : Bool) (st : RState) (c : Nat), (st j).rcs = some M →
      ((rec b fm2 st c) j).rcs = some M) :
    ∀ (st : RState), (st j).rcs = some M → ((setRCSDeps rec gs fm i st) j).rcs = some M := by
  intro st hj
  simp only [setRCSDeps]
  apply rcsDeps_preserves M _ j (fun st' c' => hpres false true st' c')
  apply rcsDeps_preserves M _ j (fun st' c' => hpres false true st' c')
  by_cases hfm : fm = true
  · rw [if_pos hfm]
    apply rcsDeps_preserves M _ j (fun st' c' => hpres false false st' c')
    exact rcsDeps_preserves M _ j (fun st' c' => hpres false true st' c') _ st hj
  · rw [if_neg hfm]
    exact rcsDeps_preserves M _ j (fun st' c' => hpres false true st' c') _ st hj

lemma setRCSAnc_preserves (M : RcsMap) (rec : Bool → Bool → RState → Nat → RState)
    (gs : GraphStatic) (i j : Nat)
    (hpres : ∀ (b fm2 : Bool) (st : RState) (c : Nat), (st j).rcs = some M →
      ((rec b fm2 st c) j).rcs = some M) :
    ∀ (st : RState), (st j).rcs = some M → ((setRCSAnc rec gs i st) j).rcs = some M := by
  intro st hj
  unfold setRCSAnc
  rcases hp : (gs.node i).parent with _ | p <;> rcases hq : (gs.node i).dlvParent with _ | q
  · exact hj
  · exact hpres true true st q hj
  · exact hpres false true st p hj
  · exact hpres true true _ q (hpres false true st p hj)

lemma setRCSDeps_establish (M : RcsMap) (rec : Bool → Bool → RState → Nat → RState)
    (gs : GraphStatic) (fm : Bool) (i j : Nat)
    (hpres : ∀ (b fm2 : Bool) (st : RState) (c : Nat), (st j).rcs = some M →
      ((rec b fm2 st c) j).rcs = some M)
    (hcase :
      (∃ c, some c ∈ (gs.node i).cnames.map (fun ct => ct.obj) ∧
        ∀ (st : RState), ((rec false true st c) j).rcs = some M) ∨
      (fm = true ∧ ∃ c, some c ∈ (gs.node i).mxTargets ∧
        ∀ (st : RState), ((rec false false st c) j).rcs = some M) ∨
      (∃ c, some c ∈ (gs.node i).externalSigners ∧
        ∀ (st : RState), ((rec false true st c) j).rcs = some M) ∨
      (∃ c, some c ∈ (gs.node i).nsDeps ∧
        ∀ (st : RState), ((rec false true st c) j).rcs = some M)) :
    ∀ (st : RState), ((setRCSDeps rec gs fm i st) j).rcs = some M := by
  intro st
  simp only [setRCSDeps]
  rcases hcase with ⟨c, hc, hest⟩ | ⟨hfm, c, hc, hest⟩ | ⟨c, hc, hest⟩ | ⟨c, hc, hest⟩
  · apply rcsDeps_preserves M _ j (fun st' c' => hpres false true st' c')
    apply rcsDeps_preserves M _ j (fun st' c' => hpres false true st' c')
    by_cases hfm : fm = true
    · rw [if_pos hfm]
      apply rcsDeps_preserves M _ j (fun st' c' => hpres false false st' c')
      exact rcsDeps_establish M _ j c (fun st' c' => hpres false true st' c') hest _ hc st
    · rw [if_neg hfm]
      exact rcsDeps_establish M _ j c (fun st' c' => hpres false true st' c') hest _ hc st
  · apply rcsDeps_preserves M _ j (fun st' c' => hpres false true st' c')
    apply rcsDeps_preserves M _ j (fun st' c' => hpres false true st' c')
    rw [if_pos hfm]
    exact rcsDeps_establish M _ j c (fun st' c' => hpres false false st' c') hest _ hc _
  · apply rcsDeps_preserves M _ j (fun st' c' => hpres false true st' c')
    exact rcsDeps_establish M _ j c (fun st' c' => hpres false true st' c') hest _ hc _
  · exact rcsDeps_establish M _ j c (fun st' c' => hpres false true st' c') hest _ hc _

lemma setRCSAnc_establish (M : RcsMap) (rec : Bool → Bool → RState → Nat → RState)
    (gs : GraphStatic) (i j : Nat)
    (hpres : ∀ (b fm2 : Bool) (st : RState) (c : Nat), (st j).rcs = some M →
      ((rec b fm2 st c) j).rcs = some M)
    (hcase :
      (∃ p, (gs.node i).parent = some p ∧
        ∀ (st : RState), ((rec false true st p) j).rcs = some M) ∨
      (∃ p, (gs.node i).dlvParent = some p ∧
        ∀ (st : RState), ((rec true true st p) j).rcs = some M)) :
    ∀ (st : RState), ((setRCSAnc rec gs i st) j).rcs = some M := by
  intro st
  unfold setRCSAnc
  rcases hcase with ⟨p, hp, hest⟩ | ⟨p, hp, hest⟩
  · rw [hp]
    rcases hq : (gs.node i).dlvParent with _ | q
    · exact hest st
    · exact hpres true true _ q (hest st)
  · rw [hp]
    exact hest _

/-- The nodes visited by `_set_response_component_status` started at node
`i` with trace `trace` and follow-mx flag `fm`: the node itself, and
recursively the visits through its non-`None` CNAME targets, MX targets
(only with the flag set, and clearing it), external signers, NS
dependencies, parent, and DLV parent, each under the extended trace. -/
inductive ReachRCS (gs : GraphStatic) : List Nat → Bool → Nat → Nat → Prop
  | self (trace : List Nat) (fm : Bool) (i : Nat) (hi : i ∉ trace) :
      ReachRCS gs trace fm i i
  | cname (trace : List Nat) (fm : Bool) (i : Nat) (hi : i ∉ trace) (ct : CnameTargetNS)
      (hct : ct ∈ (gs.node i).cnames) (c : Nat) (hc : ct.obj = some c) (j : Nat)
      (h : ReachRCS gs (trace ++ [i]) true c j) : ReachRCS gs trace fm i j
  | mx (trace : List Nat) (i : Nat) (hi : i ∉ trace) (c : Nat)
      (hc : some c ∈ (gs.node i).mxTargets) (j : Nat)
      (h : ReachRCS gs (trace ++ [i]) false c j) : ReachRCS gs trace true i j
  | signer (trace : List Nat) (fm : Bool) (i : Nat) (hi : i ∉ trace) (c : Nat)
      (hc : some c ∈ (gs.node i).externalSigners) (j : Nat)
      (h : ReachRCS gs (trace ++ [i]) true c j) : ReachRCS gs trace fm i j
  | nsdep (trace : List Nat) (fm : Bool) (i : Nat) (hi : i ∉ trace) (c : Nat)
      (hc : some c ∈ (gs.node i).nsDeps) (j : Nat)
      (h : ReachRCS gs (trace ++ [i]) true c j) : ReachRCS gs trace fm i j
  | par (trace : List Nat) (fm : Bool) (i : Nat) (hi : i ∉ trace) (p : Nat)
      (hp : (gs.node i).parent = some p) (j : Nat)
      (h : ReachRCS gs (trace ++ [i]) true p j) : ReachRCS gs trace fm i j
  | dlv (trace : List Nat) (fm : Bool) (i : Nat) (hi : i ∉ trace) (p : Nat)
      (hp : (gs.node i).dlvParent = some p) (j : Nat)
      (h : ReachRCS gs (trace ++ [i]) true p j) : ReachRCS gs trace fm i j

/-- Every node visited by the recursion gets its
`response_component_status` field assigned, for any adequate fuel. -/
lemma setRCS_reach (M : RcsMap) (gs : GraphStatic) (hWF : GraphWF gs) :
    ∀ (trace : List Nat) (fm : Bool) (i j : Nat), ReachRCS gs trace fm i j → i < gs.n →
      ∀ (fuel : Nat) (st : RState) (b : Bool), outsideCount gs trace < fuel →
        ((setRCS M fuel gs st b fm trace i) j).rcs = some M := by
  intro trace fm i j hreach
  induction hreach with
  | self trace fm i hi =>
      intro _ fuel st b hb
      obtain ⟨f, rfl⟩ : ∃ f, fuel = f + 1 := ⟨fuel - 1, by omega⟩
      exact setRCS_self M gs f st b fm trace i hi
  | cname trace fm i hi ct hct c hc j h ih =>
      intro hn fuel st b hb
      obtain ⟨f, rfl⟩ : ∃ f, fuel = f + 1 := ⟨fuel - 1, by omega⟩
      rw [setRCS_succ, if_neg hi]
      have hcn : c < gs.n := (hWF i hn).1 ct hct c hc
      have hb' : outsideCount gs (trace ++ [i]) < f := by
        have hx := outsideCount_extend hn hi
        omega
      have hpres : ∀ (b2 fm2 : Bool) (st' : RState) (c' : Nat), ((st' j)).rcs = some M →
          ((setRCS M f gs st' b2 fm2 (trace ++ [i]) c') j).rcs = some M :=
        fun b2 fm2 st' c' hj => setRCS_preserves M gs f st' b2 fm2 (trace ++ [i]) c' j hj
      have h6 := setRCSAnc_preserves M _ gs i j hpres _
        (setRCSDeps_establish M _ gs fm i j hpres
          (Or.inl ⟨c, List.mem_map.mpr ⟨ct, hct, hc⟩, fun st' => ih hcn f st' false hb'⟩) st)
      by_cases hj : j = i
      · subst hj
        rw [Function.update_same]
      · rw [Function.update_noteq hj]
        exact h6
  | mx trace i hi c hc j h ih =>
      intro hn fuel st b hb
      obtain ⟨f, rfl⟩ : ∃ f, fuel = f + 1 := ⟨fuel - 1, by omega⟩
      rw [setRCS_succ, if_neg hi]
      have hcn : c < gs.n := (hWF i hn).2.1 (some c) hc c rfl
      have hb' : outsideCount gs (trace ++ [i]) < f := by
        have hx := outsideCount_extend hn hi
        omega
      have hpres : ∀ (b2 fm2 : Bool) (st' : RState) (c' : Nat), ((st' j)).rcs = some M →
          ((setRCS M f gs st' b2 fm2 (trace ++ [i]) c') j).rcs = some M :=
        fun b2 fm2 st' c' hj => setRCS_preserves M gs f st' b2 fm2 (trace ++ [i]) c' j hj
      have h6 := setRCSAnc_preserves M _ gs i j hpres _
        (setRCSDeps_establish M _ gs true i j hpres
          (Or.inr (Or.inl ⟨rfl, c, hc, fun st' => ih hcn f st' false hb'⟩)) st)
      by_cases hj : j = i
      · subst hj
        rw [Function.update_same]
      · rw [Function.update_noteq hj]
        exact h6
  | signer trace fm i hi c hc j h ih =>
      intro hn fuel st b hb
      obtain ⟨f, rfl⟩ : ∃ f, fuel = f + 1 := ⟨fuel - 1, by omega⟩
      rw [setRCS_succ, if_neg hi]
      have hcn : c < gs.n := (hWF i hn).2.2.1 (some c) hc c rfl
      have hb' : outsideCount gs (trace ++ [i]) < f := by
        have hx := outsideCount_extend hn hi
        omega
      have hpres : ∀ (b2 fm2 : Bool) (st' : RState) (c' : Nat), ((st' j)).rcs = some M →
          ((setRCS M f gs st' b2 fm2 (trace ++ [i]) c') j).rcs = some M :=
        fun b2 fm2 st' c' hj => setRCS_preserves M gs f st' b2 fm2 (trace ++ [i]) c' j hj
      have h6 := setRCSAnc_preserves M _ gs i j hpres _
        (setRCSDeps_establish M _ gs fm i j hpres
          (Or.inr (Or.inr (Or.inl ⟨c, hc, fun st' => ih hcn f st' false hb'⟩))) st)
      by_cases hj : j = i
      · subst hj
        rw [Function.update_same]
      · rw [Function.update_noteq hj]
        exact h6
  | nsdep trace fm i hi c hc j h ih =>
      intro hn fuel st b hb
      obtain ⟨f, rfl⟩ : ∃ f, fuel = f + 1 := ⟨fuel - 1, by omega⟩
      rw [setRCS_succ, if_neg hi]
      have hcn : c < gs.n := (hWF i hn).2.2.2.1 (some c) hc c rfl
      have hb' : outsideCount gs (trace ++ [i]) < f := by
        have hx := outsideCount_extend hn hi
        omega
      have hpres : ∀ (b2 fm2 : Bool) (st' : RState) (c' : Nat), ((st' j)).rcs = some M →
          ((setRCS M f gs st' b2 fm2 (trace ++ [i]) c') j).rcs = some M :=
        fun b2 fm2 st' c' hj => setRCS_preserves M gs f st' b2 fm2 (trace ++ [i]) c' j hj
      have h6 := setRCSAnc_preserves M _ gs i j hpres _
        (setRCSDeps_establish M _ gs fm i j hpres
          (Or.inr (Or.inr (Or.inr ⟨c, hc, fun st' => ih hcn f st' false hb'⟩))) st)
      by_cases hj : j = i
      · subst hj
        rw [Function.update_same]
      · rw [Function.update_noteq hj]
        exact h6
  | par trace fm i hi p hp j h ih =>
      intro hn fuel st b hb
      obtain ⟨f, rfl⟩ : ∃ f, fuel = f + 1 := ⟨fuel - 1, by omega⟩
      rw [setRCS_succ, if_neg hi]
      have hpn : p < gs.n := (hWF i hn).2.2.2.2.1 p hp
      have hb' : outsideCount gs (trace ++ [i]) < f := by
        have hx := outsideCount_extend hn hi
        omega
      have hpres : ∀ (b2 fm2 : Bool) (st' : RState) (c' : Nat), ((st' j)).rcs = some M →
          ((setRCS M f gs st' b2 fm2 (trace ++ [i]) c') j).rcs = some M :=
        fun b2 fm2 st' c' hj => setRCS_preserves M gs f st' b2 fm2 (trace ++ [i]) c' j hj
      have h6 := setRCSAnc_establish M _ gs i j hpres
        (Or.inl ⟨p, hp, fun st' => ih hpn f st' false hb'⟩)
        (setRCSDeps (fun b2 fm2 st c => setRCS M f gs st b2 fm2 (trace ++ [i]) c) gs fm i st)
      by_cases hj : j = i
      · subst hj
        rw [Function.update_same]
      · rw [Function.update_noteq hj]
        exact h6
  | dlv trace fm i hi p hp j h ih =>
      intro hn fuel st b hb
      obtain ⟨f, rfl⟩ : ∃ f, fuel = f + 1 := ⟨fuel - 1, by omega⟩
      rw [setRCS_succ, if_neg hi]
      have hpn : p < gs.n := (hWF i hn).2.2.2.2.2 p hp
      have hb' : outsideCount gs (trace ++ [i]) < f := by
        have hx := outsideCount_extend hn hi
        omega
      have hpres : ∀ (b2 fm2 : Bool) (st' : RState) (c' : Nat), ((st' j)).rcs = some M →
          ((setRCS M f gs st' b2 fm2 (trace ++ [i]) c') j).rcs = some M :=
        fun b2 fm2 st' c' hj => setRCS_preserves M gs f st' b2 fm2 (trace ++ [i]) c' j hj
      have h6 := setRCSAnc_establish M _ gs i j hpres
        (Or.inr ⟨p, hp, fun st' => ih hpn f st' true hb'⟩)
        (setRCSDeps (fun b2 fm2 st c => setRCS M f gs st b2 fm2 (trace ++ [i]) c) gs fm i st)
      by_cases hj : j = i
      · subst hj
        rw [Function.update_same]
      · rw [Function.update_noteq hj]
        exact h6

lemma rcsGet_set (k : Nat) (v : RStatus) (k' : Nat) :
    ∀ (m : RcsMap), rcsGet (rcsSet m k v) k' = if k' = k then some v else rcsGet m k' := by
  intro m
  induction m with
  | nil =>
      by_cases h : k' = k
      · simp [rcsSet, rcsGet, h]
      · simp [rcsSet, rcsGet, h, Ne.symm h]
  | cons e t ih =>
      obtain ⟨k1, v1⟩ := e
      by_cases h1 : k1 = k
      · subst h1
        by_cases h : k' = k1
        · simp [rcsSet, rcsGet, h]
        · simp [rcsSet, rcsGet, h, Ne.symm h]
      · by_cases h : k1 = k'
        · have hkk : ¬ k' = k := fun hc => h1 (h.trans hc)
          simp [rcsSet, rcsGet, h1, h, hkk]
        · simp [rcsSet, rcsGet, h1, h, ih]

/-- `rcsSet` never removes a key. -/
lemma rcsSet_mono (k : Nat) (v : RStatus) (k' : Nat) (m : RcsMap)
    (h : (rcsGet m k').isSome = true) : (rcsGet (rcsSet m k v) k').isSome = true := by
  rw [rcsGet_set]
  by_cases hk : k' = k
  · simp [hk]
  · simpa [hk] using h

lemma rcsGet_fold_set_mono {α : Type} (f : RcsMap → α → RcsMap) (k : Nat)
    (hf : ∀ (m : RcsMap) (a : α), (rcsGet m k).isSome = true →
      (rcsGet (f m a) k).isSome = true) :
    ∀ (l : List α) (m : RcsMap), (rcsGet m k).isSome = true →
      (rcsGet (l.foldl f m) k).isSome = true := by
  intro l
  induction l with
  | nil => intro m h; exact h
  | cons a t ih => intro m h; exact ih (f m a) (hf m a h)

lemma rcsGet_if_mono (k : Nat) (P : Prop) (inst : Decidable P) (m1 m2 : RcsMap)
    (h1 : (rcsGet m1 k).isSome = true) (h2 : (rcsGet m2 k).isSome = true) :
    (rcsGet (if P then m1 else m2) k).isSome = true := by
  by_cases hp : P
  · rw [if_pos hp]; exact h1
  · rw [if_neg hp]; exact h2

lemma negInvisStep_mono (c : Component) (k : Nat) (m0 : RcsMap)
    (h0 : (rcsGet m0 k).isSome = true) :
    (rcsGet (negInvisStep c m0) k).isSome = true := by
  unfold negInvisStep
  refine rcsGet_if_mono k _ _ _ _ ?_ h0
  refine rcsGet_if_mono k _ _ _ _ ?_ ?_
  · exact rcsGet_if_mono k _ _ _ _
      (rcsGet_if_mono k _ _ _ _ (rcsSet_mono _ _ k m0 h0) h0) h0
  · refine rcsGet_if_mono k _ _ _ _ ?_ h0
    exact rcsGet_fold_set_mono _ k (fun m rs h => rcsSet_mono _ _ k m h) _ _
      (rcsGet_if_mono k _ _ _ _ (rcsSet_mono _ _ k m0 h0) h0)

lemma negSoaCheckStep_mono (c : Component) (k : Nat) (m1 : RcsMap)
    (h1 : (rcsGet m1 k).isSome = true) :
    (rcsGet (negSoaCheckStep c m1) k).isSome = true := by
  unfold negSoaCheckStep
  exact rcsGet_if_mono k _ _ _ _ h1
    (rcsGet_if_mono k _ _ _ _
      (rcsGet_if_mono k _ _ _ _ h1 (rcsSet_mono _ _ k _ h1)) h1)

/-- The per-kind processing never removes a key from the dict. -/
lemma buildStepPost_mono (c : Component) (k : Nat) :
    ∀ (m0 : RcsMap), (rcsGet m0 k).isSome = true →
      (rcsGet (buildStepPost c m0) k).isSome = true := by
  intro m0 h0
  unfold buildStepPost
  cases hk : c.kind with
  | dnskeyMeta =>
      exact rcsGet_fold_set_mono _ k (fun m rs h => rcsSet_mono _ _ k m h)
        c.dnskeyRrsets m0 h0
  | rrsetInfo => exact h0
  | nsecSet =>
      exact rcsGet_fold_set_mono _ k (fun m rs h => rcsSet_mono _ _ k m h)
        c.nsecRrsets m0 h0
  | negRespInfo => exact negSoaCheckStep_mono c k _ (negInvisStep_mono c k m0 h0)

/-- One build-loop iteration never removes a key. -/
lemma buildStep_mono (c : Component) (k : Nat) (m : RcsMap)
    (h : (rcsGet m k).isSome = true) : (rcsGet (buildStep m c) k).isSome = true :=
  buildStepPost_mono c k (rcsSet m c.cid c.status) (rcsSet_mono c.cid c.status k m h)

/-- One build-loop iteration records an entry for its own component. -/
lemma buildStep_self (c : Component) (m : RcsMap) :
    (rcsGet (buildStep m c) c.cid).isSome = true := by
  refine buildStepPost_mono c c.cid (rcsSet m c.cid c.status) ?_
  rw [rcsGet_set]
  simp

lemma fold_buildStep_mono (k : Nat) :
    ∀ (l : List Component) (m : RcsMap), (rcsGet m k).isSome = true →
      (rcsGet (l.foldl buildStep m) k).isSome = true := by
  intro l
  induction l with
  | nil => intro m h; exact h
  | cons d t ih => intro m h; exact ih (buildStep m d) (buildStep_mono d k m h)

/-- The dict built by `populate_response_component_status` holds a status
entry for every indexed component of one of the four handled classes. -/
lemma buildRcsMap_complete (comps : List Component) :
    ∀ c ∈ comps, (rcsGet (buildRcsMap comps) c.cid).isSome = true := by
  suffices h : ∀ (l : List Component) (m : RcsMap), ∀ c ∈ l,
      (rcsGet (l.foldl buildStep m) c.cid).isSome = true by
    intro c hc
    exact h comps [] c hc
  intro l
  induction l with
  | nil => intro m c hc; cases hc
  | cons d t ih =>
      intro m c hc
      rcases List.mem_cons.mp hc with rfl | hc'
      · exact fold_buildStep_mono c.cid t (buildStep m c) (buildStep_self c m)
      · exact ih (buildStep m d) c hc'

/-- A three-node MX chain: node 0's MX target is node 1, node 1's MX
target is node 2. -/
def c10ExNode (nm : DName) (mx : List (Option Nat)) : NodeStatic :=
  { name := nm, stub := false, referralRdtype := none, queries := [], cnames := [],
    mxTargets := mx, externalSigners := [], nsDeps := [], parent := none, dlvParent := none }

def c10ExGs : GraphStatic :=
  { n := 3,
    node := fun i =>
      if i = 0 then c10ExNode "a" [some 1]
      else if i = 1 then c10ExNode "b" [some 2] else c10ExNode "c" [] }

/-- Claim C10, counterexample: node 2 is an MX target of an MX target of
node 0 — a dependency reachable from node 0 in the claim's transitive
sense — yet after `populate_response_component_status` runs on node 0,
node 1's `response_component_status` is set while node 2's is still
`None`: the MX recursion passes `follow_mx=False`, so MX targets of MX
targets are never visited. -/
theorem c10_counterexample :
    ((populateRCS [] c10ExGs initState 0) 1).rcs = some (buildRcsMap []) ∧
      ((populateRCS [] c10ExGs initState 0) 2).rcs = none ∧
      (c10ExGs.node 0).mxTargets = [some 1] ∧
      (c10ExGs.node 1).mxTargets = [some 2] := by
  refine ⟨?_, ?_, ?_, ?_⟩ <;> decide

/-- Claim C10, amended: `populate_response_component_status(G)` builds one
dict and distributes that same object over the nodes actually visited by
`_set_response_component_status`: the node itself and, recursively, its
CNAME targets, external signers, NS dependencies, parent, and DLV parent —
but MX targets only while the follow-mx flag is set, and the flag is
cleared on MX recursion, so MX targets of MX targets are not visited (the
claim's unrestricted transitive reachability is refuted by
the counterexample).  Every visited node's `response_component_status`
field is assigned the one mapping (all other fields untouched; unvisited
nodes keep their old entry), and that mapping contains a status entry for
every DNSKEYMeta, RRsetInfo, NSECSet, and NegativeResponseInfo indexed by
`G`. -/
theorem c10_response_component_status_amended (comps : List Component) (gs : GraphStatic)
    (hWF : GraphWF gs) :
    (∀ (st : RState) (i j : Nat),
        (populateRCS comps gs st i) j = st j ∨
          (populateRCS comps gs st i) j = { st j with rcs := some (buildRcsMap comps) }) ∧
    (∀ (st : RState) (i : Nat),
        ((populateRCS comps gs st i) i).rcs = some (buildRcsMap comps)) ∧
    (∀ (st : RState) (i j : Nat), i < gs.n → ReachRCS gs [] true i j →
        ((populateRCS comps gs st i) j).rcs = some (buildRcsMap comps)) ∧
    (∀ c ∈ comps, (rcsGet (buildRcsMap comps) c.cid).isSome = true) := by
  refine ⟨?_, ?_, ?_, buildRcsMap_complete comps⟩
  · intro st i j
    exact setRCS_frame (buildRcsMap comps) gs (gs.n + 1) st false true [] i j
  · intro st i
    exact setRCS_self (buildRcsMap comps) gs gs.n st false true [] i (by simp)
  · intro st i j hn hreach
    exact setRCS_reach (buildRcsMap comps) gs hWF [] true i j hreach hn (gs.n + 1) st false
      (by rw [outsideCount_nil]; omega)

/-- Witness for C10's amended theorem on the concrete MX-chain graph. -/
theorem c10_response_component_status_amended_witness :
    GraphWF c10ExGs ∧
      ((populateRCS [] c10ExGs initState 0) 0).rcs = some (buildRcsMap []) := by
  have hwf : GraphWF c10ExGs := graphWF_of_b c10ExGs (by decide)
  exact ⟨hwf, (c10_response_component_status_amended [] c10ExGs hwf).2.1 initState 0⟩

end DnsvizOffline
